import Mathlib

/-!
# Identity & Reconciliation Engine of `beancount-import` — a shallow embedding

This file embeds, in Lean 4, the transaction-identity and reconciliation
logic of the bank-statement import sources found under
`beancount_import/source/` (`zen.py`, `revolut.py`, `velobank.py`,
`mt940_source.py`), and proves/refutes the specification claims about it.

Modelling conventions
* Python `Decimal` values are exact scaled integers; we model them as `Int`
  (the scale/rendering of a `Decimal` never matters to any claim: only
  equality and negation of amounts do).
* Python `datetime.date` is modelled by a `Date` structure of
  year/month/day numbers, compared lexicographically as Python does, and
  rendered in ISO form as Python's `str(date)` does.
* `hashlib.md5(data.encode()).hexdigest()[:12]` is modelled by an actual
  executable MD5 implementation (RFC 1321) over the ASCII bytes of the
  input; every hashed data string produced by the sources is ASCII, so
  `.encode()` (UTF-8) agrees with the code-point bytes.
* Python `dict` is modelled by insertion-ordered association lists with
  the `setdefault`/assignment semantics used by the sources.
* Python's stable `list.sort(key=...)` is modelled by Mathlib's (stable)
  `List.insertionSort`.
-/

/-! ## Calendar dates (model of `datetime.date`) -/

/-- Model of `datetime.date`: a calendar date compared lexicographically. -/
structure Date where
  year : Nat
  month : Nat
  day : Nat
deriving DecidableEq, Repr

/-- Lexicographic order on dates, as `datetime.date` comparison. -/
def Date.le (a b : Date) : Prop :=
  a.year < b.year ∨ (a.year = b.year ∧
    (a.month < b.month ∨ (a.month = b.month ∧ a.day ≤ b.day)))

instance : DecidablePred fun p : Date × Date => Date.le p.1 p.2 := by
  intro p; unfold Date.le; infer_instance

instance Date.decLe (a b : Date) : Decidable (Date.le a b) := by
  unfold Date.le; infer_instance

/-- `max` of two dates, as used for `max(...)` over transaction dates. -/
def Date.max (a b : Date) : Date := if Date.le a b then b else a

/-- Zero-padding of a number to at least two digits (ISO date rendering). -/
def pad2 (n : Nat) : String :=
  if n < 10 then "0" ++ toString n else toString n

/-- Zero-padding of a year to at least four digits (ISO date rendering). -/
def pad4 (n : Nat) : String :=
  if n < 10 then "000" ++ toString n
  else if n < 100 then "00" ++ toString n
  else if n < 1000 then "0" ++ toString n
  else toString n

/-- `str(date)` in Python: ISO `YYYY-MM-DD`. -/
def Date.toIso (d : Date) : String :=
  pad4 d.year ++ "-" ++ pad2 d.month ++ "-" ++ pad2 d.day

/-- Leap-year test of the proleptic Gregorian calendar (`datetime`). -/
def isLeapYear (y : Nat) : Bool :=
  y % 4 = 0 && (y % 100 ≠ 0 || y % 400 = 0)

/-- Number of days in a month (`datetime`). -/
def daysInMonth (y m : Nat) : Nat :=
  if m = 2 then (if isLeapYear y then 29 else 28)
  else if m = 4 ∨ m = 6 ∨ m = 9 ∨ m = 11 then 30
  else 31

/-- `date + timedelta(days=1)`. -/
def Date.nextDay (d : Date) : Date :=
  if d.day < daysInMonth d.year d.month then ⟨d.year, d.month, d.day + 1⟩
  else if d.month < 12 then ⟨d.year, d.month + 1, 1⟩
  else ⟨d.year + 1, 1, 1⟩

/-! ## MD5 (RFC 1321), as `hashlib.md5(data.encode()).hexdigest()`

The sources derive every transaction identifier via
`hashlib.md5(data.encode()).hexdigest()[:12]`.  We implement MD5
executably so that identifier equality and inequality are decidable on
concrete inputs. -/

/-- Addition modulo `2^32`. -/
def add32 (a b : Nat) : Nat := (a + b) % 4294967296

/-- Left rotation of a 32-bit word. -/
def rotl32 (x s : Nat) : Nat :=
  ((x <<< s) ||| (x >>> (32 - s))) % 4294967296

/-- Bitwise complement of a 32-bit word. -/
def not32 (x : Nat) : Nat := x ^^^ 0xffffffff

/-- The 64 MD5 round constants `K[i] = floor(abs(sin(i+1)) * 2^32)`. -/
def md5K : List Nat :=
  [0xd76aa478, 0xe8c7b756, 0x242070db, 0xc1bdceee,
   0xf57c0faf, 0x4787c62a, 0xa8304613, 0xfd469501,
   0x698098d8, 0x8b44f7af, 0xffff5bb1, 0x895cd7be,
   0x6b901122, 0xfd987193, 0xa679438e, 0x49b40821,
   0xf61e2562, 0xc040b340, 0x265e5a51, 0xe9b6c7aa,
   0xd62f105d, 0x02441453, 0xd8a1e681, 0xe7d3fbc8,
   0x21e1cde6, 0xc33707d6, 0xf4d50d87, 0x455a14ed,
   0xa9e3e905, 0xfcefa3f8, 0x676f02d9, 0x8d2a4c8a,
   0xfffa3942, 0x8771f681, 0x6d9d6122, 0xfde5380c,
   0xa4beea44, 0x4bdecfa9, 0xf6bb4b60, 0xbebfbc70,
   0x289b7ec6, 0xeaa127fa, 0xd4ef3085, 0x04881d05,
   0xd9d4d039, 0xe6db99e5, 0x1fa27cf8, 0xc4ac5665,
   0xf4292244, 0x432aff97, 0xab9423a7, 0xfc93a039,
   0x655b59c3, 0x8f0ccc92, 0xffeff47d, 0x85845dd1,
   0x6fa87e4f, 0xfe2ce6e0, 0xa3014314, 0x4e0811a1,
   0xf7537e82, 0xbd3af235, 0x2ad7d2bb, 0xeb86d391]

/-- The 64 MD5 per-round left-rotation amounts. -/
def md5S : List Nat :=
  [7, 12, 17, 22, 7, 12, 17, 22, 7, 12, 17, 22, 7, 12, 17, 22,
   5, 9, 14, 20, 5, 9, 14, 20, 5, 9, 14, 20, 5, 9, 14, 20,
   4, 11, 16, 23, 4, 11, 16, 23, 4, 11, 16, 23, 4, 11, 16, 23,
   6, 10, 15, 21, 6, 10, 15, 21, 6, 10, 15, 21, 6, 10, 15, 21]

/-- The MD5 round function (F, G, H, I depending on the step index). -/
def md5F (i b c d : Nat) : Nat :=
  if i < 16 then (b &&& c) ||| (not32 b &&& d)
  else if i < 32 then (d &&& b) ||| (not32 d &&& c)
  else if i < 48 then b ^^^ c ^^^ d
  else c ^^^ (b ||| not32 d)

/-- The MD5 message-word index schedule. -/
def md5G (i : Nat) : Nat :=
  if i < 16 then i
  else if i < 32 then (5 * i + 1) % 16
  else if i < 48 then (3 * i + 5) % 16
  else (7 * i) % 16

/-- The running MD5 state (four 32-bit words). -/
structure MD5State where
  a : Nat
  b : Nat
  c : Nat
  d : Nat
deriving DecidableEq, Repr

/-- The MD5 initial state. -/
def md5Init : MD5State := ⟨0x67452301, 0xefcdab89, 0x98badcfe, 0x10325476⟩

/-- One MD5 step (of 64) on a 16-word message block `M`. -/
def md5Step (M : List Nat) (st : MD5State) (i : Nat) : MD5State :=
  let f := add32 (add32 (md5F i st.b st.c st.d) st.a)
    (add32 (md5K.getD i 0) (M.getD (md5G i) 0))
  ⟨st.d, add32 st.b (rotl32 f (md5S.getD i 0)), st.b, st.c⟩

/-- Group a byte list into 32-bit little-endian words. -/
def bytesToWordsLE : List Nat → List Nat
  | b0 :: b1 :: b2 :: b3 :: rest =>
      (b0 + (b1 <<< 8) + (b2 <<< 16) + (b3 <<< 24)) :: bytesToWordsLE rest
  | _ => []

/-- Process one 64-byte block. -/
def md5ProcessBlock (st : MD5State) (block : List Nat) : MD5State :=
  let M := bytesToWordsLE block
  let r := (List.range 64).foldl (md5Step M) st
  ⟨add32 st.a r.a, add32 st.b r.b, add32 st.c r.c, add32 st.d r.d⟩

/-- Little-endian byte rendering of a value on `n` bytes. -/
def leBytes (n v : Nat) : List Nat :=
  (List.range n).map fun i => (v >>> (8 * i)) % 256

/-- MD5 padding: `0x80`, zeros to 56 mod 64, then the 64-bit bit length. -/
def md5Pad (msg : List Nat) : List Nat :=
  let z := (55 - msg.length % 64 + 64) % 64
  msg ++ [0x80] ++ List.replicate z 0 ++ leBytes 8 (msg.length * 8)

/-- Split a byte list into 64-byte chunks (the `fuel` argument makes the
recursion structural so that the kernel can evaluate it; any fuel at
least the list length yields all chunks). -/
def chunks64F : Nat → List Nat → List (List Nat)
  | 0, _ => []
  | _, [] => []
  | fuel + 1, l@(_ :: _) => l.take 64 :: chunks64F fuel (l.drop 64)

/-- Split a byte list into 64-byte chunks. -/
def chunks64 (l : List Nat) : List (List Nat) := chunks64F l.length l

/-- A hexadecimal digit character (lowercase). -/
def hexDigit (n : Nat) : Char :=
  if n < 10 then Char.ofNat (48 + n) else Char.ofNat (87 + n)

/-- Two-character lowercase hex of a byte. -/
def byteToHex (b : Nat) : String :=
  String.mk [hexDigit (b / 16), hexDigit (b % 16)]

/-- Hex rendering of a 32-bit word, least-significant byte first. -/
def wordToHexLE (w : Nat) : String :=
  byteToHex (w % 256) ++ byteToHex ((w >>> 8) % 256) ++
  byteToHex ((w >>> 16) % 256) ++ byteToHex ((w >>> 24) % 256)

/-- The code points of a string; equals its UTF-8 bytes for ASCII input
(all hashed data strings built by the sources are ASCII). -/
def asciiBytes (s : String) : List Nat := s.data.map Char.toNat

/-- `hashlib.md5(s.encode()).hexdigest()` for an ASCII string `s`. -/
def md5Hex (s : String) : String :=
  let st := (chunks64 (md5Pad (asciiBytes s))).foldl md5ProcessBlock md5Init
  wordToHexLE st.a ++ wordToHexLE st.b ++ wordToHexLE st.c ++ wordToHexLE st.d

/-- `hashlib.md5(s.encode()).hexdigest()[:12]`, the digest prefix every
source uses for its identifiers. -/
def md5Hex12 (s : String) : String := (md5Hex s).take 12

set_option maxRecDepth 8192

example : md5Hex "" = "d41d8cd98f00b204e9800998ecf8427e" := by decide
example : md5Hex "abc" = "900150983cd24fb0d6963f7d28e17f72" := by decide
example : md5Hex12 "2025-01-01:-1500:74428" = "b8ee6f4389f1" := by decide

/-! ## Observed-transaction records of the four sources

Fields are carried over from the Python dataclasses; `Decimal` fields are
`Int`, `Optional[X]` fields are `Option X`. -/

/-- `zen.ZenTransaction`: a parsed row of a Zen CSV statement. -/
structure ZenTransaction where
  date : Date
  transaction_type : String
  description : String
  settlement_amount : Int
  settlement_currency : String
  original_amount : Int
  original_currency : String
  currency_rate : Int
  fee_description : String
  fee_amount : Option Int
  fee_currency : Option String
  balance_after : Int
  line_number : Nat
  counterparty : Option String
  counterparty_address : Option String
  counterparty_iban : Option String
  card_number : Option String
deriving DecidableEq, Repr

/-- `zen.StatementInfo`: metadata of one parsed Zen CSV file. -/
structure ZenStatementInfo where
  filename : String
  iban : String
  currency : String
  period_start : Option Date
  period_end : Option Date
  opening_balance : Option Int
  closing_balance : Option Int
  transactions : List ZenTransaction
deriving DecidableEq, Repr

/-- `revolut.RevolutTransaction`: a parsed row of a Revolut CSV. -/
structure RevolutTransaction where
  transaction_type : String
  started_date : Date
  completed_date : Option Date
  description : String
  amount : Int
  fee : Int
  balance_after : Int
  currency : String
  product : Option String
  state : Option String
  line_number : Nat
  started_date_raw : Option String
  completed_date_raw : Option String
  iban : Option String
  iban_pl : Option String
  pdf_filename : Option String
  pdf_description : Option String
  reference : Option String
  counterparty_name : Option String
  counterparty_iban : Option String
  counterparty_bban : Option String
  counterparty_address : Option String
  card_number : Option String
  source_card : Option String
  original_amount : Option String
  original_currency : Option String
  exchange_rate : Option String
deriving DecidableEq, Repr

/-- `revolut.CsvStatementInfo`. -/
structure CsvStatementInfo where
  filename : String
  account_type : String
  currency : String
  transactions : List RevolutTransaction
deriving DecidableEq, Repr

/-- `velobank.RawTransaction`: a parsed row of a VeloBank statement. -/
structure VeloRawTransaction where
  transaction_date : Date
  booking_date : Date
  description : String
  amount : Int
  balance_after : Int
  statement_id : String
  line_number : Nat
  filename : String
  transaction_type : Option String
  counterparty : Option String
  counterparty_iban : Option String
  counterparty_address : Option String
  title : Option String
  card_number : Option String
  tax_nip : Option String
  tax_symbol : Option String
  tax_period : Option String
  tax_payer : Option String
deriving DecidableEq, Repr

/-- `mt940_source.Mt940Transaction`: a parsed `:61:`/`:86:` record. -/
structure Mt940Transaction where
  value_date : Date
  entry_date : Option Date
  amount : Int
  status : String
  transaction_code : String
  customer_reference : String
  bank_reference : String
  extra_details : String
  transaction_details : String
  transaction_type : Option String
  title : Option String
  counterparty : Option String
  counterparty_iban : Option String
  reference : Option String
deriving DecidableEq, Repr

/-! ## Fingerprint generators (`_generate_transaction_id` of each source)

Each is `namespace ++ md5(data).hexdigest()[:12]` for a source-specific
data string; the data-string builders below are transcribed from the
f-strings in the sources.  Python renders `Decimal`/`date` fields with
`str`; our `Int`/`Date.toIso` renderings are injective on the model, which
is all any claim uses. -/

/-- The data string hashed by `zen._generate_transaction_id`:
`f"{txn.date}:{txn.settlement_amount}:{txn.balance_after}"`. -/
def zenDataString (txn : ZenTransaction) : String :=
  txn.date.toIso ++ ":" ++ toString txn.settlement_amount ++ ":" ++
    toString txn.balance_after

/-- `zen._generate_transaction_id(iban, txn)`; the `iban` parameter is
declared by the source but unused by its body. -/
def zenGenerateTransactionId (iban : String) (txn : ZenTransaction) : String :=
  "zen:" ++ md5Hex12 (zenDataString txn)

/-- `txn.completed_date or txn.started_date` (Python `or` on dates:
`None` is the only falsy value). -/
def RevolutTransaction.effectiveDate (txn : RevolutTransaction) : Date :=
  txn.completed_date.getD txn.started_date

/-- The data string hashed by `revolut._generate_transaction_id`:
`f"{account_type}:{currency}:{completed or started}:{amount}:{balance_after}"`. -/
def revolutDataString (account_type currency : String)
    (txn : RevolutTransaction) : String :=
  account_type ++ ":" ++ currency ++ ":" ++ txn.effectiveDate.toIso ++ ":" ++
    toString txn.amount ++ ":" ++ toString txn.balance_after

/-- `revolut._generate_transaction_id(account_type, currency, txn)`. -/
def revolutGenerateTransactionId (account_type currency : String)
    (txn : RevolutTransaction) : String :=
  "revolut:" ++ md5Hex12 (revolutDataString account_type currency txn)

/-- `s.endswith(suffix)` (character-list implementation, so that the
kernel can evaluate it). -/
def pyEndsWith (s suffix : String) : Bool :=
  suffix.data.isSuffixOf s.data

/-- `s.startswith(pre)` (character-list implementation, so that the
kernel can evaluate it). -/
def pyStartsWith (s pre : String) : Bool :=
  pre.data.isPrefixOf s.data

/-- The data string hashed by `velobank._generate_transaction_id`:
date, amount and balance, plus the line number for `.html` statements. -/
def veloDataString (txn : VeloRawTransaction) : String :=
  let parts := [txn.booking_date.toIso, toString txn.amount,
    toString txn.balance_after]
  let parts := if pyEndsWith txn.filename ".html"
    then parts ++ [toString txn.line_number] else parts
  String.intercalate ":" parts

/-- `velobank._generate_transaction_id(txn)`. -/
def veloGenerateTransactionId (txn : VeloRawTransaction) : String :=
  "velobank:" ++ md5Hex12 (veloDataString txn)

/-- The data string hashed by `mt940_source._generate_transaction_id`:
`f"{txn.value_date}:{txn.amount}:{txn.extra_details or txn.customer_reference}"`
(Python `or` on strings: the empty string is falsy). -/
def mt940DataString (txn : Mt940Transaction) : String :=
  txn.value_date.toIso ++ ":" ++ toString txn.amount ++ ":" ++
    (if txn.extra_details = "" then txn.customer_reference
     else txn.extra_details)

/-- `mt940_source._generate_transaction_id(account_iban, txn)`; the
`account_iban` parameter is declared by the source but unused. -/
def mt940GenerateTransactionId (account_iban : String)
    (txn : Mt940Transaction) : String :=
  "mt940:" ++ md5Hex12 (mt940DataString txn)

/-! ## The journal view and the result accumulator

`Source.prepare(journal, results)` reads `journal.all_entries` and appends
to `results` via `add_pending_entry` / `add_invalid_reference` /
`add_account`.  The `SourceResults` / `ImportResult` /
`InvalidSourceReference` classes live in the framework outside the
packaged source files, so their shapes are modelled from the spec. -/

/-- A reference to an existing ledger posting: the index of its entry in
the journal and of the posting within that entry.  Stands for the
`(entry, posting)` object pair that `prepare` collects. -/
abbrev PostingRef := Nat × Nat

/-- A posting of an existing journal entry, as far as the reconciler reads
it: its account and its `source_ref` metadata value if any (`none` covers
both `meta is None` and a missing key). -/
structure JPosting where
  account : String
  sourceRef : Option String
deriving DecidableEq, Repr

/-- An existing journal entry: a transaction with postings, or any other
directive (skipped by the `isinstance(entry, Transaction)` checks). -/
inductive JournalEntry where
  | txn (postings : List JPosting)
  | other
deriving DecidableEq, Repr

/-- Modelled from the spec: `InvalidSourceReference(num_extra, postings)`
(framework class, outside the packaged sources) — "an Identifier ...
paired with the offending (entry, posting) list and a count of 'extra'
occurrences". -/
structure InvalidSourceReference where
  numExtra : Nat
  postings : List PostingRef
deriving DecidableEq, Repr

/-! ### Insertion-ordered dictionaries

Python `dict`s preserve insertion order; the sources use two update
patterns: `d.setdefault(k, []).append(v)` and plain assignment
`d[k] = v` (which keeps an existing key's position). -/

/-- `d.setdefault(k, []).append(v)` on an insertion-ordered dict. -/
def slotAppend {κ α : Type} [DecidableEq κ]
    (m : List (κ × List α)) (k : κ) (v : α) : List (κ × List α) :=
  match m with
  | [] => [(k, [v])]
  | (k', vs) :: rest =>
      if k' = k then (k', vs ++ [v]) :: rest
      else (k', vs) :: slotAppend rest k v

/-- `d[k] = v` on an insertion-ordered dict. -/
def dictPut {κ α : Type} [DecidableEq κ]
    (m : List (κ × α)) (k : κ) (v : α) : List (κ × α) :=
  match m with
  | [] => [(k, v)]
  | (k', v') :: rest =>
      if k' = k then (k', v) :: rest
      else (k', v') :: dictPut rest k v

/-- `d.get(k)` on an insertion-ordered dict. -/
def dictGet {κ α : Type} [DecidableEq κ]
    (m : List (κ × α)) (k : κ) : Option α :=
  match m with
  | [] => none
  | (k', v) :: rest => if k' = k then some v else dictGet rest k

/-- The inner `for posting in entry.postings` scan of entry `ei`: keep
postings on an owned account that carry a `source_ref` and group the
`(entry index, posting index)` references by that identifier. -/
def scanPostings (allAccounts : List String) (ei : Nat) (pi : Nat)
    (m : List (String × List PostingRef)) :
    List JPosting → List (String × List PostingRef)
  | [] => m
  | p :: rest =>
      let m' := if p.account ∈ allAccounts then
          match p.sourceRef with
          | some ref => slotAppend m ref (ei, pi)
          | none => m
        else m
      scanPostings allAccounts ei (pi + 1) m' rest

/-- The `for entry in journal.all_entries` scan, threading the entry
index. -/
def buildMatchedIdsAux (allAccounts : List String) (ei : Nat)
    (m : List (String × List PostingRef)) :
    List JournalEntry → List (String × List PostingRef)
  | [] => m
  | .other :: rest => buildMatchedIdsAux allAccounts (ei + 1) m rest
  | .txn ps :: rest =>
      buildMatchedIdsAux allAccounts (ei + 1)
        (scanPostings allAccounts ei 0 m ps) rest

/-- The `matched_ids` index every source's `prepare` builds: scan the
journal's transactions' postings, keep those on an owned account that
carry a `source_ref`, and group the `(entry, posting)` references by
that identifier. -/
def buildMatchedIds (allAccounts : List String) (journal : List JournalEntry) :
    List (String × List PostingRef) :=
  buildMatchedIdsAux allAccounts 0 [] journal

/-! ## Zen: configuration and construction (`ZenSource.__init__`) -/

/-- Python truthiness of an `Optional[str]`: `None` and `""` are falsy. -/
def truthyStrOpt : Option String → Bool
  | none => false
  | some s => s ≠ ""

/-- `a or b` on strings (Python `or`: `""` is falsy). -/
def pyOrS (a b : String) : String := if a = "" then b else a

/-- `a or b` where `a` is an `Optional[str]` and `b` a string. -/
def pyOrStr (a : Option String) (b : String) : String :=
  match a with
  | some s => if s = "" then b else s
  | none => b

/-- The configuration a constructed `ZenSource` holds. -/
structure ZenConfig where
  account_map : List (String × String)
  default_account : Option String
deriving DecidableEq, Repr

/-- `ZenSource.__init__`: stores `account_map or {}` and
`default_account`, and raises `ValueError` when neither is truthy, before
any data is loaded or reconciled. -/
def zenInit (account_map : List (String × String))
    (default_account : Option String) : Except String ZenConfig :=
  if ¬ truthyStrOpt default_account ∧ account_map = [] then
    .error ("ZenSource requires either 'account_map' or " ++
      "'default_account' to be specified.")
  else
    .ok ⟨account_map, default_account⟩

/-- `ZenSource._get_account_for_id`. -/
def ZenConfig.getAccountForId (cfg : ZenConfig) (account_id : String) :
    Option String :=
  match dictGet cfg.account_map account_id with
  | some a => some a
  | none => cfg.default_account

/-- `ZenSource._get_all_accounts` (a Python `set`, used for membership
tests and for `add_account`; modelled as the underlying list — membership
agrees). -/
def ZenConfig.allAccounts (cfg : ZenConfig) : List String :=
  cfg.account_map.map Prod.snd ++
    (match cfg.default_account with
     | some a => [a]
     | none => [])

/-- `value if truthy else None`: collapses `None` and `""` (the sources
guard account values with plain truthiness in several places). -/
def truthyAccount : Option String → Option String
  | some a => if a = "" then none else some a
  | none => none

/-! ## Zen: FX pair matching (`ZenSource._find_fx_pairs`) -/

/-- The `(iban, currency, line_number)` key used to mark FX-matched
transactions. -/
abbrev TxnKey := String × String × Nat

/-- The key of a `(statement, txn)` pair. -/
def zenTxnKey (st : ZenStatementInfo × ZenTransaction) : TxnKey :=
  (st.1.iban, st.1.currency, st.2.line_number)

/-- `zen.FxPair`: a matched pair of FX transactions. -/
structure FxPair where
  date : Date
  source_statement : ZenStatementInfo
  source_txn : ZenTransaction
  target_statement : ZenStatementInfo
  target_txn : ZenTransaction
  is_reversal : Bool
deriving DecidableEq, Repr

/-- Substring test on character lists (`needle in haystack`). -/
def listContainsSub {α : Type} [DecidableEq α] (needle : List α) :
    List α → Bool
  | [] => needle.isEmpty
  | h :: t => needle.isPrefixOf (h :: t) || listContainsSub needle t

/-- `'reversal' in description.lower()`. -/
def descriptionHasReversal (description : String) : Bool :=
  listContainsSub "reversal".data (description.data.map Char.toLower)

/-- The amount-symmetry and distinct-currency condition of
`_find_fx_pairs`. -/
def fxMatchCond (src tgt : ZenStatementInfo × ZenTransaction) : Bool :=
  src.2.settlement_amount.natAbs = tgt.2.original_amount.natAbs &&
  src.2.original_amount.natAbs = tgt.2.settlement_amount.natAbs &&
  src.1.currency ≠ tgt.1.currency

/-- Accumulator of `_find_fx_pairs`. -/
structure FxAcc where
  pairs : List FxPair
  matchedSource : List TxnKey
  matchedTarget : List TxnKey
deriving DecidableEq, Repr

/-- The inner `for tgt_stmt, tgt_txn in targets` search: the first
not-yet-matched target satisfying the match condition. -/
def findFxTarget (src : ZenStatementInfo × ZenTransaction)
    (matchedTarget : List TxnKey) :
    List (ZenStatementInfo × ZenTransaction) →
      Option (ZenStatementInfo × ZenTransaction)
  | [] => none
  | tgt :: rest =>
      if zenTxnKey tgt ∈ matchedTarget then
        findFxTarget src matchedTarget rest
      else if fxMatchCond src tgt then some tgt
      else findFxTarget src matchedTarget rest

/-- The outer `for src_stmt, src_txn in sources` loop of one
`(date, rate)` group. -/
def fxProcessSources (date : Date)
    (targets : List (ZenStatementInfo × ZenTransaction)) :
    FxAcc → List (ZenStatementInfo × ZenTransaction) → FxAcc
  | acc, [] => acc
  | acc, src :: rest =>
      if zenTxnKey src ∈ acc.matchedSource then
        fxProcessSources date targets acc rest
      else
        match findFxTarget src acc.matchedTarget targets with
        | none => fxProcessSources date targets acc rest
        | some tgt =>
            fxProcessSources date targets
              { pairs := acc.pairs ++
                  [⟨date, src.1, src.2, tgt.1, tgt.2,
                    descriptionHasReversal src.2.description⟩],
                matchedSource := acc.matchedSource ++ [zenTxnKey src],
                matchedTarget := acc.matchedTarget ++ [zenTxnKey tgt] }
              rest

/-- `ZenSource._find_fx_pairs`: group `Exchange money` transactions by
`(date, currency_rate)` and greedily match negative-settlement sources to
positive-settlement targets of a different currency with mirrored
amounts. -/
def zenFindFxPairs (transactions : List (ZenStatementInfo × ZenTransaction)) :
    List FxPair × List TxnKey × List TxnKey :=
  let fx := transactions.filter
    (fun st => st.2.transaction_type = "Exchange money")
  let byDateRate := fx.foldl
    (fun m st => slotAppend m (st.2.date, st.2.currency_rate) st) []
  let acc := byDateRate.foldl
    (fun acc g =>
      let sources := g.2.filter (fun st => st.2.settlement_amount < 0)
      let targets := g.2.filter (fun st => 0 < st.2.settlement_amount)
      fxProcessSources g.1.1 targets acc sources)
    ⟨[], [], []⟩
  (acc.pairs, acc.matchedSource, acc.matchedTarget)

/-! ## Zen: synthesized entries -/

/-- The placeholder account of the offsetting posting.  Modelled from the
spec and the module docstrings: the `FIXME_ACCOUNT` constant lives in
`beancount_import/matching.py`, outside the packaged sources; the zen
docstring shows it as `Expenses:FIXME`. -/
def FIXME_ACCOUNT : String := "Expenses:FIXME"

/-- A posting of a synthesized transaction: account, units, optional
per-unit price and the `source_ref` metadata value.  A price is kept as
the exact operand pair `(total, quantity, currency)` whose `Decimal`
quotient the source stores; the remaining metadata keys (bank name,
counterparty, title, …) are copied verbatim from transaction fields and
are elided here. -/
structure BPosting where
  account : String
  units : Int × String
  price : Option (Int × Int × String)
  sourceRef : Option String
deriving DecidableEq, Repr

/-- A synthesized `Transaction` directive. -/
structure BTransaction where
  date : Date
  payee : String
  narration : String
  postings : List BPosting
deriving DecidableEq, Repr

/-- A directive inside a pending entry. -/
inductive Directive where
  | txn (t : BTransaction)
  | balance (date : Date) (account : Option String) (amount : Int × String)
  | document (date : Date) (account : String) (filename : String)
deriving DecidableEq, Repr

/-- Modelled from the spec: an `ImportResult` (framework class) — a
pending entry with a date and its directives; its `info` dict is
display-only provenance and is elided. -/
structure PendingEntry where
  date : Date
  entries : List Directive
deriving DecidableEq, Repr

/-- `ZenSource._make_transaction`: two postings — the target account with
the observed signed amount and the `source_ref`, and the FIXME
placeholder with the exact negation in the same currency. -/
def zenMakeTransaction (statement : ZenStatementInfo) (txn : ZenTransaction)
    (target_account : String) : BTransaction :=
  let txn_id := zenGenerateTransactionId statement.iban txn
  { date := txn.date,
    payee := pyOrStr txn.counterparty "Zen",
    narration := pyOrS txn.transaction_type (pyOrS txn.description "Transaction"),
    postings :=
      [⟨target_account, (txn.settlement_amount, txn.settlement_currency),
        none, some txn_id⟩,
       ⟨FIXME_ACCOUNT, (-txn.settlement_amount, txn.settlement_currency),
        none, none⟩] }

/-- `ZenSource._make_fx_transaction`: one entry with the debit posting in
the source currency and the credit posting in the target currency carrying
a per-unit price (`abs(src.settlement) / tgt.settlement` in the source
currency); each posting carries its own `source_ref`. -/
def zenMakeFxTransaction (pair : FxPair)
    (source_account target_account : String) : BTransaction :=
  let src_txn := pair.source_txn
  let tgt_txn := pair.target_txn
  let src_id := zenGenerateTransactionId pair.source_statement.iban src_txn
  let tgt_id := zenGenerateTransactionId pair.target_statement.iban tgt_txn
  let narration :=
    (if pair.is_reversal then "FX reversal - " else "FX - ") ++
      pair.source_statement.currency ++ " → " ++ pair.target_statement.currency
  { date := pair.date,
    payee := "Zen",
    narration := narration,
    postings :=
      [⟨source_account, (src_txn.settlement_amount, src_txn.settlement_currency),
        none, some src_id⟩,
       ⟨target_account, (tgt_txn.settlement_amount, tgt_txn.settlement_currency),
        some ((src_txn.settlement_amount.natAbs : Int),
          tgt_txn.settlement_amount, src_txn.settlement_currency),
        some tgt_id⟩] }

/-! ## Zen: the reconciliation pass (`ZenSource.prepare`)

`prepare` appends pending entries and invalid references to the results
in one pass over (fx pairs, remaining transactions, balance groups, stale
index keys, statements).  The accumulators it threads (`valid_ids`,
`balances_by_account`) never influence an emission made inside the same
loop, so the pass is decomposed below into one definition per loop, and
the final output concatenates their emissions in the source's order. -/

/-- `f"{iban}_{currency}"`, the source-local account id. -/
def zenAccountId (iban currency : String) : String := iban ++ "_" ++ currency

/-- Identifier of an FX pair's debit side. -/
def FxPair.srcId (p : FxPair) : String :=
  zenGenerateTransactionId p.source_statement.iban p.source_txn

/-- Identifier of an FX pair's credit side. -/
def FxPair.tgtId (p : FxPair) : String :=
  zenGenerateTransactionId p.target_statement.iban p.target_txn

/-- `InvalidSourceReference(len(existing) - 1, existing)` emitted when a
lookup result has more than one reference (else nothing). -/
def dupInvalid : Option (List PostingRef) → List InvalidSourceReference
  | some refs => if refs.length > 1 then [⟨refs.length - 1, refs⟩] else []
  | none => []

/-- One iteration of the `for pair in fx_pairs` loop: its pending-entry
and invalid-reference emissions. -/
def zenFxStep (cfg : ZenConfig) (lookup : String → Option (List PostingRef))
    (pair : FxPair) : List PendingEntry × List InvalidSourceReference :=
  match lookup pair.srcId, lookup pair.tgtId with
  | none, none =>
      match truthyAccount (cfg.getAccountForId
              (zenAccountId pair.source_statement.iban pair.source_statement.currency)),
            truthyAccount (cfg.getAccountForId
              (zenAccountId pair.target_statement.iban pair.target_statement.currency)) with
      | some sa, some ta =>
          ([⟨pair.date, [.txn (zenMakeFxTransaction pair sa ta)]⟩], [])
      | _, _ => ([], [])
  | se, te => ([], dupInvalid se ++ dupInvalid te)

/-- One iteration of the `for statement, txn in self.transactions` loop
(non-FX-paired transactions): its emissions. -/
def zenTxnStep (cfg : ZenConfig) (lookup : String → Option (List PostingRef))
    (st : ZenStatementInfo × ZenTransaction) :
    List PendingEntry × List InvalidSourceReference :=
  let txn_id := zenGenerateTransactionId st.1.iban st.2
  match lookup txn_id with
  | some existing =>
      if existing.length > 1 then ([], [⟨existing.length - 1, existing⟩])
      else ([], [])
  | none =>
      match cfg.getAccountForId (zenAccountId st.1.iban st.1.currency) with
      | none => ([], [])
      | some target =>
          ([⟨st.2.date, [.txn (zenMakeTransaction st.1 st.2 target)]⟩], [])

/-- The `valid_ids` set accumulated over both loops (membership only). -/
def zenValidIds (pairs : List FxPair)
    (nonPaired : List (ZenStatementInfo × ZenTransaction)) : List String :=
  pairs.flatMap (fun p => [p.srcId, p.tgtId]) ++
    nonPaired.map (fun st => zenGenerateTransactionId st.1.iban st.2)

/-- The `balances_by_account` accumulator: `(date, balance, currency)`
triples appended under each (truthy) resolved account, FX sides first,
then the non-paired transactions. -/
def zenBalancesByAccount (cfg : ZenConfig) (pairs : List FxPair)
    (nonPaired : List (ZenStatementInfo × ZenTransaction)) :
    List (String × List (Date × Int × String)) :=
  let m := pairs.foldl
    (fun m p =>
      let m := match truthyAccount (cfg.getAccountForId
          (zenAccountId p.source_statement.iban p.source_statement.currency)) with
        | some a => slotAppend m a
            (p.source_txn.date, p.source_txn.balance_after,
              p.source_txn.settlement_currency)
        | none => m
      match truthyAccount (cfg.getAccountForId
          (zenAccountId p.target_statement.iban p.target_statement.currency)) with
      | some a => slotAppend m a
          (p.target_txn.date, p.target_txn.balance_after,
            p.target_txn.settlement_currency)
      | none => m)
    []
  nonPaired.foldl
    (fun m st =>
      match truthyAccount (cfg.getAccountForId
          (zenAccountId st.1.iban st.1.currency)) with
      | some a => slotAppend m a
          (st.2.date, st.2.balance_after, st.2.settlement_currency)
      | none => m)
    m

/-- The date-key order used to sort balance lists
(`balance_list.sort(key=lambda x: x[0])`). -/
def balLe (a b : Date × Int × String) : Prop := Date.le a.1 b.1

instance balLe.decRel : DecidableRel balLe := fun a b => Date.decLe a.1 b.1

instance balLe.total : IsTotal (Date × Int × String) balLe :=
  ⟨fun a b => by unfold balLe Date.le; omega⟩

instance balLe.trans : IsTrans (Date × Int × String) balLe :=
  ⟨fun a b c => by unfold balLe Date.le; omega⟩

/-- Sort a balance list by date (`balance_list.sort(key=lambda x: x[0])`;
Python's sort is stable, as is `List.insertionSort`). -/
def sortByDate (l : List (Date × Int × String)) : List (Date × Int × String) :=
  l.insertionSort balLe

/-- Group a date-sorted balance list by `(year, month)`, keeping the last
balance written for each month (`monthly_balances[year_month] = ...`). -/
def zenMonthlyBalances (l : List (Date × Int × String)) :
    List ((Nat × Nat) × (Int × String)) :=
  (sortByDate l).foldl
    (fun m e => dictPut m (e.1.year, e.1.month) e.2) []

/-- The first day of the month after `(year, month)` — the assertion date
(`date(year+1, 1, 1)` after December, else `date(year, month+1, 1)`). -/
def firstOfNextMonth (ym : Nat × Nat) : Date :=
  if ym.2 = 12 then ⟨ym.1 + 1, 1, 1⟩ else ⟨ym.1, ym.2 + 1, 1⟩

/-- One iteration of the assertion-emitting loop: skip the month of
`today`, otherwise emit the assertion dated the first of the next
month. -/
def zenBalanceEmit (today : Date) (account : String)
    (e : (Nat × Nat) × (Int × String)) : List PendingEntry :=
  if e.1 = (today.year, today.month) then []
  else
    let bdate := firstOfNextMonth e.1
    [⟨bdate, [.balance bdate (some account) e.2]⟩]

/-- The balance assertions for one account's balance list: one per
grouped month, skipping the month of `today`. -/
def zenBalanceEntriesFor (today : Date) (account : String)
    (l : List (Date × Int × String)) : List PendingEntry :=
  (zenMonthlyBalances l).flatMap (zenBalanceEmit today account)

/-- The `Generate monthly balance assertions` loop. -/
def zenBalancePhase (today : Date)
    (balances : List (String × List (Date × Int × String))) :
    List PendingEntry :=
  balances.flatMap (fun e => zenBalanceEntriesFor today e.1 e.2)

/-- The `Check for invalid references` loop: one
`InvalidSourceReference(len(postings), postings)` per indexed identifier
that no current transaction produced. -/
def zenStalePhase (matched : List (String × List PostingRef))
    (validIds : List String) : List InvalidSourceReference :=
  matched.flatMap
    (fun e => if e.1 ∈ validIds then [] else [⟨e.2.length, e.2⟩])

/-- The `Generate Document directives` loop. -/
def zenDocPhase (cfg : ZenConfig) (statements : List ZenStatementInfo) :
    List PendingEntry :=
  statements.flatMap
    (fun s =>
      match s.transactions with
      | [] => []
      | t :: ts =>
          match cfg.getAccountForId (zenAccountId s.iban s.currency) with
          | none => []
          | some target =>
              let maxDate := (ts.map (·.date)).foldl Date.max t.date
              [⟨maxDate, [.document maxDate target s.filename]⟩])

/-- `self.transactions`: every statement's transactions tagged with their
statement, in load order. -/
def zenTransactionsOf (statements : List ZenStatementInfo) :
    List (ZenStatementInfo × ZenTransaction) :=
  statements.flatMap (fun s => s.transactions.map (fun t => (s, t)))

/-- Everything `ZenSource.prepare` appends to the results, by emitting
loop. -/
structure ZenOutput where
  fxPending : List PendingEntry
  txnPending : List PendingEntry
  balancePending : List PendingEntry
  docPending : List PendingEntry
  fxInvalid : List InvalidSourceReference
  txnInvalid : List InvalidSourceReference
  staleInvalid : List InvalidSourceReference
  accounts : List String
deriving DecidableEq, Repr

/-- The FX pairs found among the loaded statements' transactions. -/
def zenPairsOf (statements : List ZenStatementInfo) : List FxPair :=
  (zenFindFxPairs (zenTransactionsOf statements)).1

/-- The union of matched FX source and target keys. -/
def zenPairedKeysOf (statements : List ZenStatementInfo) : List TxnKey :=
  (zenFindFxPairs (zenTransactionsOf statements)).2.1 ++
    (zenFindFxPairs (zenTransactionsOf statements)).2.2

/-- The transactions outside any FX pair, in load order. -/
def zenNonPairedOf (statements : List ZenStatementInfo) :
    List (ZenStatementInfo × ZenTransaction) :=
  (zenTransactionsOf statements).filter
    (fun st => decide (zenTxnKey st ∉ zenPairedKeysOf statements))

/-- `ZenSource.prepare(journal, results)` as a function of the loaded
statements, the journal contents and the current date
(`datetime.date.today()`). -/
def zenPrepare (cfg : ZenConfig) (today : Date)
    (statements : List ZenStatementInfo) (journal : List JournalEntry) :
    ZenOutput :=
  let lookup := dictGet (buildMatchedIds cfg.allAccounts journal)
  { fxPending := ((zenPairsOf statements).map (zenFxStep cfg lookup)).flatMap (·.1),
    txnPending :=
      ((zenNonPairedOf statements).map (zenTxnStep cfg lookup)).flatMap (·.1),
    balancePending := zenBalancePhase today
      (zenBalancesByAccount cfg (zenPairsOf statements) (zenNonPairedOf statements)),
    docPending := zenDocPhase cfg statements,
    fxInvalid := ((zenPairsOf statements).map (zenFxStep cfg lookup)).flatMap (·.2),
    txnInvalid :=
      ((zenNonPairedOf statements).map (zenTxnStep cfg lookup)).flatMap (·.2),
    staleInvalid := zenStalePhase (buildMatchedIds cfg.allAccounts journal)
      (zenValidIds (zenPairsOf statements) (zenNonPairedOf statements)),
    accounts := cfg.allAccounts }

/-- All pending entries, in the order `prepare` appends them. -/
def ZenOutput.pending (o : ZenOutput) : List PendingEntry :=
  o.fxPending ++ o.txnPending ++ o.balancePending ++ o.docPending

/-- All invalid references, in the order `prepare` appends them. -/
def ZenOutput.invalid (o : ZenOutput) : List InvalidSourceReference :=
  o.fxInvalid ++ o.txnInvalid ++ o.staleInvalid

/-- The transaction pending entries staged by a run, FX ones first — the
part of the output whose commitment adds `source_ref` postings to the
journal. -/
def ZenOutput.stagedTxnPending (o : ZenOutput) : List PendingEntry :=
  o.fxPending ++ o.txnPending

/-- Committing a pending directive to the ledger: a staged transaction
becomes a journal transaction carrying its postings' accounts and
`source_ref`s; balance assertions and documents are not `Transaction`s
and contribute no postings to the reconciler's scan. -/
def commitDirective : Directive → JournalEntry
  | .txn t => .txn (t.postings.map (fun p => ⟨p.account, p.sourceRef⟩))
  | .balance _ _ _ => .other
  | .document _ _ _ => .other

/-- Committing a list of pending entries appends their directives to the
journal in order. -/
def commitPending (pending : List PendingEntry) : List JournalEntry :=
  pending.flatMap (fun pe => pe.entries.map commitDirective)

/-! ## Revolut: configuration and reconciliation (`RevolutSource`) -/

/-- The configuration a constructed `RevolutSource` holds (no fallback
account: lookups go through `account_map.get` only). -/
structure RevolutConfig where
  account_map : List (String × String)
deriving DecidableEq, Repr

/-- `RevolutSource.__init__`: raises `ValueError` when `account_map` is
falsy (empty). -/
def revolutInit (account_map : List (String × String)) :
    Except String RevolutConfig :=
  if account_map = [] then
    .error "RevolutSource requires 'account_map' to be specified."
  else .ok ⟨account_map⟩

/-- A decimal literal as parsed by `Decimal(s)` (after the source's
`.replace(',', '')`): optional sign, digits with at most one point.
`Decimal` values are modelled as integers throughout, so the value is the
digit string with the point removed (injective for the fixed-scale
amounts statements carry); `none` models the `InvalidOperation` the
`except` clause catches. -/
def parseDecimalLit (s : String) : Option Int :=
  let cs := s.data
  let signed : Bool × List Char :=
    match cs with
    | '-' :: rest => (true, rest)
    | '+' :: rest => (false, rest)
    | rest => (false, rest)
  let body := signed.2
  let digits := body.filter (·.isDigit)
  if !digits.isEmpty &&
      body.all (fun c => c.isDigit || c = '.') &&
      (body.filter (· = '.')).length ≤ 1 then
    let v : Nat := digits.foldl (fun n c => n * 10 + (c.toNat - 48)) 0
    some (if signed.1 then -(v : Int) else (v : Int))
  else none

/-- A synthesized Revolut transaction entry: date and postings (the
payee/narration display heuristics of `_make_transaction` are elided). -/
structure RevEntryTxn where
  date : Date
  postings : List BPosting
deriving DecidableEq, Repr

/-- A directive inside a Revolut pending entry. -/
inductive RevDirective where
  | txn (t : RevEntryTxn)
  | balance (date : Date) (account : String) (amount : Int × String)
  | document (date : Date) (account : String) (filename : String)
deriving DecidableEq, Repr

/-- A Revolut pending entry (`ImportResult`, info elided). -/
structure RevPendingEntry where
  date : Date
  entries : List RevDirective
deriving DecidableEq, Repr

/-- `RevolutSource._make_transaction`, postings only: the target posting
with the observed amount, and the FIXME posting — for an FX transaction
(truthy `original_amount`/`original_currency`, different currency) the
parsed original amount in the original currency with a per-unit price,
falling back to the plain negation when parsing or the division fails. -/
def revolutMakeTransaction (statement : CsvStatementInfo)
    (txn : RevolutTransaction) (target_account : String) : RevEntryTxn :=
  let txn_id :=
    revolutGenerateTransactionId statement.account_type txn.currency txn
  let posting : BPosting :=
    ⟨target_account, (txn.amount, txn.currency), none, some txn_id⟩
  let fallback : BPosting :=
    ⟨FIXME_ACCOUNT, (-txn.amount, txn.currency), none, none⟩
  let fixme : BPosting :=
    match txn.original_amount, txn.original_currency with
    | some oa, some oc =>
        if oa ≠ "" ∧ oc ≠ "" ∧ oc ≠ txn.currency then
          match parseDecimalLit (String.mk (oa.data.filter (fun c => c ≠ ','))) with
          | some parsed =>
              if parsed = 0 then fallback    -- ZeroDivisionError path
              else
                let orig := if txn.amount < 0 then parsed else -parsed
                ⟨FIXME_ACCOUNT, (orig, oc),
                  some ((txn.amount.natAbs : Int), (orig.natAbs : Int),
                    txn.currency), none⟩
          | none => fallback                 -- InvalidOperation path
        else fallback
    | _, _ => fallback
  ⟨txn.effectiveDate, [posting, fixme]⟩

/-- One iteration of Revolut's transaction loop: pending and invalid
emissions, and the balance contribution (tracked only for newly staged
entries). -/
def revolutTxnStep (cfg : RevolutConfig)
    (lookup : String → Option (List PostingRef))
    (st : CsvStatementInfo × RevolutTransaction) :
    List RevPendingEntry × List InvalidSourceReference ×
      List (String × (Date × Int × String)) :=
  let txn_id :=
    revolutGenerateTransactionId st.1.account_type st.2.currency st.2
  match lookup txn_id with
  | some existing => ([], dupInvalid (some existing), [])
  | none =>
      match dictGet cfg.account_map (st.1.account_type ++ "_" ++ st.2.currency) with
      | none => ([], [], [])
      | some target =>
          ([⟨st.2.effectiveDate,
             [.txn (revolutMakeTransaction st.1 st.2 target)]⟩],
           [],
           [(target, (st.2.effectiveDate, st.2.balance_after, st.2.currency))])

/-- Revolut's balance-assertion loop: per account, the latest balance per
date, then a single assertion dated one day after the overall latest
date. -/
def revolutBalancePhase
    (balances : List (String × List (Date × Int × String))) :
    List RevPendingEntry :=
  balances.flatMap
    (fun e =>
      match e.2 with
      | [] => []
      | _ =>
          let latestByDate := e.2.foldl
            (fun m b => dictPut m b.1 (b.2.1, b.2.2)) []
          match latestByDate with
          | [] => []
          | k :: ks =>
              let latestDate := ks.foldl (fun acc kv => Date.max acc kv.1) k.1
              match dictGet latestByDate latestDate with
              | none => []
              | some bc =>
                  [⟨latestDate.nextDay,
                    [.balance latestDate.nextDay e.1 bc]⟩])

/-- Revolut's stale-reference loop: `InvalidSourceReference(0, entries)`
for indexed identifiers that are not current — only those with the
`revolut:` prefix. -/
def revolutStalePhase (matched : List (String × List PostingRef))
    (validIds : List String) : List InvalidSourceReference :=
  matched.flatMap
    (fun e =>
      if e.1 ∈ validIds then []
      else if pyStartsWith e.1 "revolut:" then [⟨0, e.2⟩]
      else [])

/-- Revolut's document loop: one `Document` per distinct CSV file, dated
at the file's latest transaction date (today when the file has none). -/
def revolutDocPhase (cfg : RevolutConfig) (today : Date)
    (transactions : List (CsvStatementInfo × RevolutTransaction)) :
    List RevPendingEntry :=
  (transactions.foldl
    (fun (acc : List String × List RevPendingEntry) st =>
      if st.1.filename ∈ acc.1 then acc
      else
        (acc.1 ++ [st.1.filename],
         acc.2 ++
           (match dictGet cfg.account_map
               (st.1.account_type ++ "_" ++ st.2.currency) with
            | none => []
            | some target =>
                let ds := (transactions.filter
                    (fun x => x.1.filename == st.1.filename)).map
                  (fun x => x.2.effectiveDate)
                let maxDate := match ds with
                  | [] => today
                  | d :: rest => rest.foldl Date.max d
                [⟨maxDate, [.document maxDate target st.1.filename]⟩])))
    ([], [])).2

/-- `self.transactions` of a Revolut source. -/
def revolutTransactionsOf (statements : List CsvStatementInfo) :
    List (CsvStatementInfo × RevolutTransaction) :=
  statements.flatMap (fun s => s.transactions.map (fun t => (s, t)))

/-- Everything `RevolutSource.prepare` appends to the results, by
emitting loop. -/
structure RevOutput where
  txnPending : List RevPendingEntry
  balancePending : List RevPendingEntry
  docPending : List RevPendingEntry
  txnInvalid : List InvalidSourceReference
  staleInvalid : List InvalidSourceReference
deriving DecidableEq, Repr

/-- `RevolutSource.prepare` as a function of the loaded statements, the
journal contents and the current date. -/
def revolutPrepare (cfg : RevolutConfig) (today : Date)
    (statements : List CsvStatementInfo) (journal : List JournalEntry) :
    RevOutput :=
  let allAccounts := cfg.account_map.map Prod.snd
  let matched := buildMatchedIds allAccounts journal
  let lookup := dictGet matched
  let transactions := revolutTransactionsOf statements
  let steps := transactions.map (revolutTxnStep cfg lookup)
  let balances := steps.foldl
    (fun m s => s.2.2.foldl (fun m bc => slotAppend m bc.1 bc.2) m) []
  { txnPending := steps.flatMap (·.1),
    balancePending := revolutBalancePhase balances,
    docPending := revolutDocPhase cfg today transactions,
    txnInvalid := steps.flatMap (·.2.1),
    staleInvalid := revolutStalePhase matched
      (transactions.map
        (fun st => revolutGenerateTransactionId st.1.account_type
          st.2.currency st.2)) }

/-- All Revolut pending entries, in emission order. -/
def RevOutput.pending (o : RevOutput) : List RevPendingEntry :=
  o.txnPending ++ o.balancePending ++ o.docPending

/-- All Revolut invalid references, in emission order. -/
def RevOutput.invalid (o : RevOutput) : List InvalidSourceReference :=
  o.txnInvalid ++ o.staleInvalid

/-! ## VeloBank: construction, synthesized entries and balance loop -/

/-- `velobank.DEFAULT_CURRENCY`. -/
def veloDefaultCurrency : String := "PLN"

/-- `a or b` on `Optional[str]` values (Python truthiness). -/
def pyOrOpt (a b : Option String) : Option String :=
  match a with
  | some s => if s = "" then b else some s
  | none => b

/-- The configuration a constructed `VelobankSource` holds
(`default_account or assets_account` is combined at construction). -/
structure VeloConfig where
  account_map : List (String × String)
  default_account : Option String
deriving DecidableEq, Repr

/-- `VelobankSource.__init__`: combines the legacy `assets_account` with
`default_account` and raises `ValueError` when neither that nor
`account_map` is truthy, before loading any statement. -/
def veloInit (assets_account : Option String)
    (account_map : List (String × String))
    (default_account : Option String) : Except String VeloConfig :=
  let d := pyOrOpt default_account assets_account
  if ¬ truthyStrOpt d ∧ account_map = [] then
    .error ("VelobankSource requires either 'assets_account', " ++
      "'account_map', or 'default_account' to be specified.")
  else .ok ⟨account_map, d⟩

/-- `VelobankSource._get_account_for_iban`. -/
def VeloConfig.getAccountForIban (cfg : VeloConfig) (iban : String) :
    Option String :=
  if iban ≠ "" then
    match dictGet cfg.account_map iban with
    | some a => some a
    | none => cfg.default_account
  else cfg.default_account

/-- `velobank.StatementInfo`. -/
structure VeloStatementInfo where
  filename : String
  statement_id : String
  account_iban : String
  period_start : Date
  period_end : Date
  opening_balance : Option Int
  transactions : List VeloRawTransaction
deriving DecidableEq, Repr

/-- A posting of a synthesized VeloBank transaction (the target account
is whatever `_get_account_for_iban` returned and may be `None`). -/
structure VeloPosting where
  account : Option String
  units : Int × String
  sourceRef : Option String
deriving DecidableEq, Repr

/-- A synthesized VeloBank transaction entry: date and postings
(payee/narration display heuristics elided). -/
structure VeloEntryTxn where
  date : Date
  postings : List VeloPosting
deriving DecidableEq, Repr

/-- `VelobankSource._make_transaction`, postings only: target posting
with the observed amount in `DEFAULT_CURRENCY` and the `source_ref`, and
the FIXME posting with the exact negation. -/
def veloMakeTransaction (txn : VeloRawTransaction)
    (target_account : Option String) : VeloEntryTxn :=
  let txn_id := veloGenerateTransactionId txn
  ⟨txn.booking_date,
   [⟨target_account, (txn.amount, veloDefaultCurrency), some txn_id⟩,
    ⟨some FIXME_ACCOUNT, (-txn.amount, veloDefaultCurrency), none⟩]⟩

/-- The per-statement balance assertion of `VelobankSource.prepare`: for
a statement with transactions, assert the last listed transaction's
balance one day after the statement's period end. -/
def veloBalanceEntryFor (cfg : VeloConfig) (statement : VeloStatementInfo) :
    List PendingEntry :=
  match statement.transactions.getLast? with
  | none => []
  | some last_txn =>
      let bdate := statement.period_end.nextDay
      [⟨bdate, [.balance bdate
        (cfg.getAccountForIban statement.account_iban)
        (last_txn.balance_after, veloDefaultCurrency)]⟩]

/-- VeloBank's stale-reference loop (same shape as zen's:
`InvalidSourceReference(len(postings), postings)` for every indexed
identifier no current transaction produces). -/
def veloStalePhase (matched : List (String × List PostingRef))
    (validIds : List String) : List InvalidSourceReference :=
  matched.flatMap
    (fun e => if e.1 ∈ validIds then [] else [⟨e.2.length, e.2⟩])

/-! ## MT940: synthesized entries -/

/-- `mt940_source.Mt940Statement`. -/
structure Mt940Statement where
  filename : String
  account_iban : String
  statement_number : String
  currency : String
  opening_balance : Int
  opening_date : Date
  closing_balance : Int
  closing_date : Date
  transactions : List Mt940Transaction
deriving DecidableEq, Repr

/-- A synthesized MT940 transaction entry. -/
structure Mt940EntryTxn where
  date : Date
  payee : Option String
  narration : String
  postings : List BPosting
deriving DecidableEq, Repr

/-- `Mt940Source._make_transaction`: the account posting with the signed
amount in the statement currency and the `source_ref`, and the FIXME
posting with the exact negation. -/
def mt940MakeTransaction (stmt : Mt940Statement) (txn : Mt940Transaction)
    (account : String) : Mt940EntryTxn :=
  let txn_id := mt940GenerateTransactionId stmt.account_iban txn
  { date := txn.value_date,
    payee := truthyAccount txn.counterparty,
    narration := pyOrStr txn.transaction_type
      (pyOrStr txn.title "MT940 Transaction"),
    postings :=
      [⟨account, (txn.amount, stmt.currency), none, some txn_id⟩,
       ⟨FIXME_ACCOUNT, (-txn.amount, stmt.currency), none, none⟩] }

/-! ## Concrete fixtures used by witnesses and counterexamples -/

/-- A concrete Zen card payment (−15.00 PLN leaving 744.28, as in the
spec's §8 scenario). -/
def sampleZenTxn : ZenTransaction :=
  { date := ⟨2025, 1, 1⟩
    transaction_type := "Card payment"
    description := "STARBUCKS              POL,POL CARD: MASTERCARD *7492"
    settlement_amount := -1500
    settlement_currency := "PLN"
    original_amount := -1500
    original_currency := "PLN"
    currency_rate := 1
    fee_description := ""
    fee_amount := none
    fee_currency := none
    balance_after := 74428
    line_number := 25
    counterparty := some "STARBUCKS"
    counterparty_address := some "POL"
    counterparty_iban := none
    card_number := some "7492" }

/-- A concrete Zen statement holding `sampleZenTxn`. -/
def sampleZenStatement : ZenStatementInfo :=
  { filename := "zen/2025/2025-01-PLN-1234.csv"
    iban := "GB72TCCL04140411776433"
    currency := "PLN"
    period_start := some ⟨2025, 1, 1⟩
    period_end := some ⟨2025, 1, 31⟩
    opening_balance := some 75928
    closing_balance := some 74428
    transactions := [sampleZenTxn] }

/-- A Zen configuration mapping the sample statement's account. -/
def sampleZenCfg : ZenConfig :=
  ⟨[("GB72TCCL04140411776433_PLN", "Assets:Zen:PLN")], none⟩

/-- A Zen statement whose `IBAN_CURRENCY` id is not in `sampleZenCfg`. -/
def unmappedZenStatement : ZenStatementInfo :=
  { sampleZenStatement with iban := "LT601010012345678901" }

/-- A concrete Revolut card payment. -/
def sampleRevTxn : RevolutTransaction :=
  { transaction_type := "CARD_PAYMENT"
    started_date := ⟨2025, 1, 15⟩
    completed_date := some ⟨2025, 1, 15⟩
    description := "Starbucks"
    amount := -1500
    fee := 0
    balance_after := 10000
    currency := "PLN"
    product := some "Current"
    state := some "COMPLETED"
    line_number := 2
    started_date_raw := none
    completed_date_raw := none
    iban := none
    iban_pl := none
    pdf_filename := none
    pdf_description := none
    reference := none
    counterparty_name := none
    counterparty_iban := none
    counterparty_bban := none
    counterparty_address := none
    card_number := none
    source_card := none
    original_amount := none
    original_currency := none
    exchange_rate := none }

/-! ## C10 — the Zen identifier generator ignores its `iban` argument -/

/-- C10: `zen._generate_transaction_id` never reads `iban`: the
identifier is the same for any two IBAN arguments, and any two Zen
transactions agreeing on date, settlement amount and balance-after
receive the same identifier whatever accounts they came from. -/
theorem zen_id_ignores_iban :
    (∀ (iban₁ iban₂ : String) (txn : ZenTransaction),
        zenGenerateTransactionId iban₁ txn = zenGenerateTransactionId iban₂ txn) ∧
    (∀ (iban₁ iban₂ : String) (t₁ t₂ : ZenTransaction),
        t₁.date = t₂.date →
        t₁.settlement_amount = t₂.settlement_amount →
        t₁.balance_after = t₂.balance_after →
        zenGenerateTransactionId iban₁ t₁ = zenGenerateTransactionId iban₂ t₂) := by
  constructor
  · intro iban₁ iban₂ txn
    rfl
  · intro iban₁ iban₂ t₁ t₂ h₁ h₂ h₃
    simp [zenGenerateTransactionId, zenDataString, h₁, h₂, h₃]

/-- Witness for C10: the sample transaction moved to a different IBAN and
currency keeps its identifier. -/
theorem zen_id_ignores_iban_witness :
    zenGenerateTransactionId "GB72TCCL04140411776433" sampleZenTxn =
      zenGenerateTransactionId "LT601010012345678901"
        { sampleZenTxn with settlement_currency := "EUR", description := "other" } :=
  zen_id_ignores_iban.2 "GB72TCCL04140411776433" "LT601010012345678901"
    sampleZenTxn _ rfl rfl rfl

/-! ## C9 — fingerprints are independent of description/title text -/

/-- C9: for each source, rewriting a transaction's description/title text
(and the other attribute text outside the hashed fields) leaves the
generated identifier unchanged: zen hashes only date, settlement amount
and balance; revolut only account type, currency, date, amount, balance;
velobank only date, amount, balance (and the line number for `.html`
files); mt940 only date, amount and the `:61:` reference details — never
the parsed `title`/`transaction_details` text. -/
theorem fingerprint_ignores_description :
    (∀ (iban d ty : String) (c a ci cn : Option String) (t : ZenTransaction),
        zenGenerateTransactionId iban
          { t with description := d, transaction_type := ty, counterparty := c,
                   counterparty_address := a, counterparty_iban := ci,
                   card_number := cn } =
        zenGenerateTransactionId iban t) ∧
    (∀ (at_ cur d ty : String) (r pd cn : Option String) (t : RevolutTransaction),
        revolutGenerateTransactionId at_ cur
          { t with description := d, transaction_type := ty, reference := r,
                   pdf_description := pd, counterparty_name := cn } =
        revolutGenerateTransactionId at_ cur t) ∧
    (∀ (d : String) (ti ty c : Option String) (t : VeloRawTransaction),
        veloGenerateTransactionId
          { t with description := d, title := ti, transaction_type := ty,
                   counterparty := c } =
        veloGenerateTransactionId t) ∧
    (∀ (iban td : String) (ti ty c : Option String) (t : Mt940Transaction),
        mt940GenerateTransactionId iban
          { t with transaction_details := td, title := ti,
                   transaction_type := ty, counterparty := c } =
        mt940GenerateTransactionId iban t) := by
  refine ⟨fun _ _ _ _ _ _ _ _ => rfl, fun _ _ _ _ _ _ _ _ => rfl,
    fun _ _ _ _ _ => rfl, fun _ _ _ _ _ _ => rfl⟩

/-! ## C4 — what the fingerprints hash -/

/-- C4 (amended): each source's identifier is its namespace prefix plus a
12-hex-character MD5 prefix of a colon-joined field string, and the
identifier is a function of exactly those hashed fields — but the hashed
field sets are source-specific: zen hashes date, amount, balance; revolut
additionally its account type and currency; velobank additionally the
line number for `.html` statements; and mt940 hashes date, amount and a
`:61:` reference text with no running balance at all. -/
theorem fingerprint_hashed_fields :
    (∀ (iban : String) (t : ZenTransaction),
        zenGenerateTransactionId iban t = "zen:" ++ md5Hex12 (zenDataString t)) ∧
    (∀ (iban₁ iban₂ : String) (t₁ t₂ : ZenTransaction),
        t₁.date = t₂.date → t₁.settlement_amount = t₂.settlement_amount →
        t₁.balance_after = t₂.balance_after →
        zenGenerateTransactionId iban₁ t₁ = zenGenerateTransactionId iban₂ t₂) ∧
    (∀ (at_ cur : String) (t₁ t₂ : RevolutTransaction),
        t₁.effectiveDate = t₂.effectiveDate → t₁.amount = t₂.amount →
        t₁.balance_after = t₂.balance_after →
        revolutGenerateTransactionId at_ cur t₁ =
          revolutGenerateTransactionId at_ cur t₂) ∧
    (∀ (t₁ t₂ : VeloRawTransaction),
        t₁.booking_date = t₂.booking_date → t₁.amount = t₂.amount →
        t₁.balance_after = t₂.balance_after → t₁.filename = t₂.filename →
        t₁.line_number = t₂.line_number →
        veloGenerateTransactionId t₁ = veloGenerateTransactionId t₂) ∧
    (∀ (iban₁ iban₂ : String) (t₁ t₂ : Mt940Transaction),
        t₁.value_date = t₂.value_date → t₁.amount = t₂.amount →
        t₁.extra_details = t₂.extra_details →
        t₁.customer_reference = t₂.customer_reference →
        mt940GenerateTransactionId iban₁ t₁ = mt940GenerateTransactionId iban₂ t₂) := by
  refine ⟨fun _ _ => rfl, ?_, ?_, ?_, ?_⟩
  · intro _ _ t₁ t₂ h₁ h₂ h₃
    simp [zenGenerateTransactionId, zenDataString, h₁, h₂, h₃]
  · intro at_ cur t₁ t₂ h₁ h₂ h₃
    simp [revolutGenerateTransactionId, revolutDataString, h₁, h₂, h₃]
  · intro t₁ t₂ h₁ h₂ h₃ h₄ h₅
    simp [veloGenerateTransactionId, veloDataString, h₁, h₂, h₃, h₄, h₅]
  · intro _ _ t₁ t₂ h₁ h₂ h₃ h₄
    simp [mt940GenerateTransactionId, mt940DataString, h₁, h₂, h₃, h₄]

/-- Witness for C4 (amended): two concrete Revolut transactions agreeing
on all of revolut's hashed fields (same account type and currency) but
with different descriptions share one identifier. -/
theorem fingerprint_hashed_fields_witness :
    revolutGenerateTransactionId "personal" "PLN" sampleRevTxn =
      revolutGenerateTransactionId "personal" "PLN"
        { sampleRevTxn with description := "Costa Coffee" } :=
  fingerprint_hashed_fields.2.2.1 "personal" "PLN" sampleRevTxn _ rfl rfl rfl

/-- Counterexample to C4 as stated: two Revolut observed transactions of
one source kind agreeing on date (`occurred_on`), amount and running
balance — differing only in currency — receive different identifiers, so
agreement on those three fields alone does not determine the identifier
(and, per `mt940DataString`, mt940 hashes no running balance at all). -/
theorem fingerprint_hashed_fields_counterexample :
    (sampleRevTxn.effectiveDate =
        ({ sampleRevTxn with currency := "USD" } : RevolutTransaction).effectiveDate) ∧
    (sampleRevTxn.amount =
        ({ sampleRevTxn with currency := "USD" } : RevolutTransaction).amount) ∧
    (sampleRevTxn.balance_after =
        ({ sampleRevTxn with currency := "USD" } : RevolutTransaction).balance_after) ∧
    revolutGenerateTransactionId "savings" sampleRevTxn.currency sampleRevTxn ≠
      revolutGenerateTransactionId "savings"
        ({ sampleRevTxn with currency := "USD" } : RevolutTransaction).currency
        { sampleRevTxn with currency := "USD" } := by
  refine ⟨rfl, rfl, rfl, ?_⟩
  decide

/-! ## C8 — missing account configuration fails at construction -/

/-- C8: constructing a source with no account mapping at all (no
`account_map` entry and no truthy default/fallback account) raises
`ValueError` at construction time, before any loading or reconciliation;
conversely a successful construction always holds a truthy default or a
non-empty map (never a silent default). -/
theorem construction_requires_mapping :
    (∀ (m : List (String × String)) (d : Option String),
        m = [] → truthyStrOpt d = false →
        ∀ cfg, zenInit m d ≠ .ok cfg) ∧
    (∀ (aa d : Option String) (m : List (String × String)),
        m = [] → truthyStrOpt (pyOrOpt d aa) = false →
        ∀ cfg, veloInit aa m d ≠ .ok cfg) ∧
    (∀ m : List (String × String), m = [] →
        ∀ cfg, revolutInit m ≠ .ok cfg) ∧
    (∀ (m : List (String × String)) (d : Option String) (cfg : ZenConfig),
        zenInit m d = .ok cfg → truthyStrOpt d = true ∨ m ≠ []) := by
  refine ⟨?_, ?_, ?_, ?_⟩
  · intro m d hm hd cfg h
    simp [zenInit, hm, hd] at h
  · intro aa d m hm hd cfg h
    simp [veloInit, hm, hd] at h
  · intro m hm cfg h
    simp [revolutInit, hm] at h
  · intro m d cfg h
    rcases eq_or_ne m [] with hm | hm
    · left
      by_contra hd
      simp only [Bool.not_eq_true] at hd
      simp [zenInit, hm, hd] at h
    · right
      exact hm

/-- Witness for C8: the fully unconfigured constructions error out
concretely. -/
theorem construction_requires_mapping_witness :
    (zenInit [] none).isOk = false ∧
    (veloInit none [] none).isOk = false ∧
    (revolutInit []).isOk = false := by
  refine ⟨?_, ?_, ?_⟩
  · cases h : zenInit [] none with
    | ok cfg => exact absurd h (construction_requires_mapping.1 [] none rfl rfl cfg)
    | error e => rfl
  · cases h : veloInit none [] none with
    | ok cfg =>
        exact absurd h (construction_requires_mapping.2.1 none none [] rfl rfl cfg)
    | error e => rfl
  · cases h : revolutInit [] with
    | ok cfg => exact absurd h (construction_requires_mapping.2.2.1 [] rfl cfg)
    | error e => rfl

/-! ## C5 — zero-sum of synthesized transactions -/

/-- Sum of posting units in one currency. -/
def unitsSumFor (ps : List BPosting) (cur : String) : Int :=
  (ps.filter (fun p => p.units.2 == cur)).foldl (fun s p => s + p.units.1) 0

/-- Sum of VeloBank posting units in one currency. -/
def veloUnitsSumFor (ps : List VeloPosting) (cur : String) : Int :=
  (ps.filter (fun p => p.units.2 == cur)).foldl (fun s p => s + p.units.1) 0

/-- A two-posting entry whose second posting negates the first in the
same currency sums to zero in every currency. -/
theorem unitsSumFor_pair (p₁ p₂ : BPosting)
    (hc : p₁.units.2 = p₂.units.2) (hs : p₂.units.1 = -p₁.units.1)
    (cur : String) : unitsSumFor [p₁, p₂] cur = 0 := by
  by_cases h : p₁.units.2 = cur
  · have h₂ : p₂.units.2 = cur := hc ▸ h
    simp [unitsSumFor, h, h₂, hs]
  · have h₂ : ¬ p₂.units.2 = cur := hc ▸ h
    simp [unitsSumFor, h, h₂]

/-- The VeloBank version of `unitsSumFor_pair`. -/
theorem veloUnitsSumFor_pair (p₁ p₂ : VeloPosting)
    (hc : p₁.units.2 = p₂.units.2) (hs : p₂.units.1 = -p₁.units.1)
    (cur : String) : veloUnitsSumFor [p₁, p₂] cur = 0 := by
  by_cases h : p₁.units.2 = cur
  · have h₂ : p₂.units.2 = cur := hc ▸ h
    simp [veloUnitsSumFor, h, h₂, hs]
  · have h₂ : ¬ p₂.units.2 = cur := hc ▸ h
    simp [veloUnitsSumFor, h, h₂]

/-- C5 (amended): every synthesized single-currency transaction has
exactly the observed posting on the target account and its exact
negation on the FIXME placeholder, so its units sum to zero in every
currency — for zen, mt940 and velobank unconditionally, and for revolut
whenever the transaction is not an FX one (no foreign original
amount/currency).  FX entries instead pair two different-currency legs
with a price annotation and do not sum to zero per currency (see the
counterexample). -/
theorem synthesized_zero_sum :
    (∀ (s : ZenStatementInfo) (t : ZenTransaction) (a : String),
        (zenMakeTransaction s t a).postings.map (fun p => (p.account, p.units)) =
          [(a, (t.settlement_amount, t.settlement_currency)),
           (FIXME_ACCOUNT, (-t.settlement_amount, t.settlement_currency))] ∧
        ∀ cur, unitsSumFor (zenMakeTransaction s t a).postings cur = 0) ∧
    (∀ (stmt : Mt940Statement) (t : Mt940Transaction) (a : String) (cur : String),
        unitsSumFor (mt940MakeTransaction stmt t a).postings cur = 0) ∧
    (∀ (t : VeloRawTransaction) (a : Option String) (cur : String),
        veloUnitsSumFor (veloMakeTransaction t a).postings cur = 0) ∧
    (∀ (s : CsvStatementInfo) (t : RevolutTransaction) (a : String),
        t.original_amount = none ∨ t.original_currency = none ∨
          t.original_currency = some "" ∨ t.original_currency = some t.currency →
        ∀ cur, unitsSumFor (revolutMakeTransaction s t a).postings cur = 0) := by
  refine ⟨?_, ?_, ?_, ?_⟩
  · intro s t a
    refine ⟨rfl, fun cur => ?_⟩
    by_cases h : t.settlement_currency = cur <;>
      simp [zenMakeTransaction, unitsSumFor, h]
  · intro stmt t a cur
    by_cases h : stmt.currency = cur <;>
      simp [mt940MakeTransaction, unitsSumFor, h]
  · intro t a cur
    by_cases h : veloDefaultCurrency = cur <;>
      simp [veloMakeTransaction, veloUnitsSumFor, h]
  · intro s t a h cur
    have hfb : (revolutMakeTransaction s t a).postings =
        [⟨a, (t.amount, t.currency), none,
          some (revolutGenerateTransactionId s.account_type t.currency t)⟩,
         ⟨FIXME_ACCOUNT, (-t.amount, t.currency), none, none⟩] := by
      rcases h with h | h | h | h <;>
        rcases ho : t.original_amount with _ | oa <;>
        rcases hc : t.original_currency with _ | oc <;>
        simp_all [revolutMakeTransaction]
    rw [hfb]
    by_cases h : t.currency = cur <;> simp [unitsSumFor, h]

/-- Witness for C5 (amended): the sample Zen transaction's entry has
units (−15.00, +15.00) in PLN, summing to zero in PLN and in EUR. -/
theorem synthesized_zero_sum_witness :
    unitsSumFor
      (zenMakeTransaction sampleZenStatement sampleZenTxn "Assets:Zen:PLN").postings
      "PLN" = 0 ∧
    unitsSumFor
      (zenMakeTransaction sampleZenStatement sampleZenTxn "Assets:Zen:PLN").postings
      "EUR" = 0 :=
  ⟨(synthesized_zero_sum.1 sampleZenStatement sampleZenTxn "Assets:Zen:PLN").2 "PLN",
   (synthesized_zero_sum.1 sampleZenStatement sampleZenTxn "Assets:Zen:PLN").2 "EUR"⟩

/-- The PLN debit side of a concrete Zen currency exchange
(−28.14 PLN for 6.74 EUR). -/
def zenFxTxnPLN : ZenTransaction :=
  { date := ⟨2025, 3, 9⟩
    transaction_type := "Exchange money"
    description := "Currency exchange transaction"
    settlement_amount := -2814
    settlement_currency := "PLN"
    original_amount := -674
    original_currency := "EUR"
    currency_rate := 41751
    fee_description := ""
    fee_amount := none
    fee_currency := none
    balance_after := 50000
    line_number := 10
    counterparty := none
    counterparty_address := none
    counterparty_iban := none
    card_number := none }

/-- The EUR credit side of the same exchange (+6.74 EUR). -/
def zenFxTxnEUR : ZenTransaction :=
  { date := ⟨2025, 3, 9⟩
    transaction_type := "Exchange money"
    description := "Currency exchange transaction"
    settlement_amount := 674
    settlement_currency := "EUR"
    original_amount := 2814
    original_currency := "PLN"
    currency_rate := 41751
    fee_description := ""
    fee_amount := none
    fee_currency := none
    balance_after := 674
    line_number := 12
    counterparty := none
    counterparty_address := none
    counterparty_iban := none
    card_number := none }

/-- The PLN statement holding the debit side. -/
def zenFxStmtPLN : ZenStatementInfo :=
  { filename := "zen/2025/2025-03-PLN-1234.csv"
    iban := "GB72TCCL04140411776433"
    currency := "PLN"
    period_start := some ⟨2025, 3, 1⟩
    period_end := some ⟨2025, 3, 31⟩
    opening_balance := some 52814
    closing_balance := some 50000
    transactions := [zenFxTxnPLN] }

/-- The EUR statement holding the credit side. -/
def zenFxStmtEUR : ZenStatementInfo :=
  { filename := "zen/2025/2025-03-EUR-5678.csv"
    iban := "GB72TCCL04140411776433"
    currency := "EUR"
    period_start := some ⟨2025, 3, 1⟩
    period_end := some ⟨2025, 3, 31⟩
    opening_balance := some 0
    closing_balance := some 674
    transactions := [zenFxTxnEUR] }

/-- A Zen configuration mapping both currency accounts. -/
def zenFxCfg : ZenConfig :=
  ⟨[("GB72TCCL04140411776433_PLN", "Assets:Zen:PLN"),
    ("GB72TCCL04140411776433_EUR", "Assets:Zen:EUR")], none⟩

/-- The first staged transaction entry of a Zen run, when there is one. -/
def firstStagedTxn (o : ZenOutput) : Option BTransaction :=
  match o.stagedTxnPending with
  | ⟨_, [Directive.txn t]⟩ :: _ => some t
  | _ => none

/-- Counterexample to C5 as stated: the FX-pair entry the engine stages
for the concrete exchange above has units summing to −28.14 in PLN and
+6.74 in EUR — not zero in each currency — and carries no FIXME posting
with the negated amount (the legs balance by price annotation, not by
units). -/
theorem synthesized_zero_sum_counterexample :
    Option.map
      (fun t => (unitsSumFor t.postings "PLN", unitsSumFor t.postings "EUR"))
      (firstStagedTxn
        (zenPrepare zenFxCfg ⟨2025, 10, 12⟩ [zenFxStmtPLN, zenFxStmtEUR] [])) =
      some (-2814, 674) ∧ ¬ ((-2814 : Int) = 0 ∧ (674 : Int) = 0) := by
  constructor
  · decide
  · decide

/-! ## C7 — unmapped transactions are dropped, silently -/

/-- C7 (amended): a transaction whose `owning_account_id` resolves to no
account (no `account_map` entry, no fallback) is dropped without raising:
its step stages nothing and records nothing, and the emissions of the
whole pass are exactly those of the remaining transactions — there is no
"skipped — unmapped" diagnostic of any kind in the output. -/
theorem unmapped_dropped_silently :
    ∀ (cfg : ZenConfig) (lookup : String → Option (List PostingRef))
      (st : ZenStatementInfo × ZenTransaction),
      cfg.getAccountForId (zenAccountId st.1.iban st.1.currency) = none →
      lookup (zenGenerateTransactionId st.1.iban st.2) = none →
      zenTxnStep cfg lookup st = ([], []) ∧
      ∀ us vs : List (ZenStatementInfo × ZenTransaction),
        ((us ++ st :: vs).map (zenTxnStep cfg lookup)).flatMap (fun r => r.1) =
          ((us ++ vs).map (zenTxnStep cfg lookup)).flatMap (fun r => r.1) ∧
        ((us ++ st :: vs).map (zenTxnStep cfg lookup)).flatMap (fun r => r.2) =
          ((us ++ vs).map (zenTxnStep cfg lookup)).flatMap (fun r => r.2) := by
  intro cfg lookup st hacct hlook
  have hstep : zenTxnStep cfg lookup st = ([], []) := by
    simp [zenTxnStep, hacct, hlook]
  refine ⟨hstep, fun us vs => ?_⟩
  constructor <;> simp [hstep]

/-- Witness for C7 (amended): the sample unmapped transaction's step
emits nothing. -/
theorem unmapped_dropped_silently_witness :
    zenTxnStep sampleZenCfg (fun _ => none)
      (unmappedZenStatement, sampleZenTxn) = ([], []) :=
  (unmapped_dropped_silently sampleZenCfg (fun _ => none)
    (unmappedZenStatement, sampleZenTxn) rfl rfl).1

/-- Counterexample to C7 as stated: running the whole pass over a source
holding one unmapped transaction produces the very same output as running
it over an empty source — no pending entry, no invalid reference, no
countable diagnostic anywhere: the drop is silent. -/
theorem unmapped_dropped_counterexample :
    zenPrepare sampleZenCfg ⟨2025, 10, 12⟩ [unmappedZenStatement] [] =
      zenPrepare sampleZenCfg ⟨2025, 10, 12⟩ [] [] ∧
    (zenPrepare sampleZenCfg ⟨2025, 10, 12⟩ [unmappedZenStatement] []).pending = [] ∧
    (zenPrepare sampleZenCfg ⟨2025, 10, 12⟩ [unmappedZenStatement] []).invalid = [] := by
  refine ⟨?_, ?_, ?_⟩ <;> decide

/-! ## C1 — the per-transaction reconciliation decision -/

/-- C1 (amended): for each observed (non-FX-paired) transaction the pass
computes the identifier and looks it up in the `source_ref` index:
not found and the owning account resolves → exactly one pending entry is
staged; not found and it does not resolve → the transaction is dropped
(nothing staged, nothing recorded); found with exactly one reference →
nothing staged, nothing recorded; found with more than one reference →
nothing staged and exactly one invalid reference with count
(references − 1) listing all the referencing pairs. -/
theorem reconcile_txn_cases :
    ∀ (cfg : ZenConfig) (lookup : String → Option (List PostingRef))
      (st : ZenStatementInfo × ZenTransaction),
      (lookup (zenGenerateTransactionId st.1.iban st.2) = none →
        (∀ target,
          cfg.getAccountForId (zenAccountId st.1.iban st.1.currency) = some target →
          zenTxnStep cfg lookup st =
            ([⟨st.2.date, [.txn (zenMakeTransaction st.1 st.2 target)]⟩], [])) ∧
        (cfg.getAccountForId (zenAccountId st.1.iban st.1.currency) = none →
          zenTxnStep cfg lookup st = ([], []))) ∧
      (∀ refs, lookup (zenGenerateTransactionId st.1.iban st.2) = some refs →
        refs.length = 1 → zenTxnStep cfg lookup st = ([], [])) ∧
      (∀ refs, lookup (zenGenerateTransactionId st.1.iban st.2) = some refs →
        1 < refs.length →
        zenTxnStep cfg lookup st = ([], [⟨refs.length - 1, refs⟩])) := by
  intro cfg lookup st
  refine ⟨fun hl => ⟨fun target ha => ?_, fun ha => ?_⟩,
    fun refs hl h1 => ?_, fun refs hl h1 => ?_⟩
  · simp [zenTxnStep, hl, ha]
  · simp [zenTxnStep, hl, ha]
  · simp [zenTxnStep, hl, h1]
  · simp only [zenTxnStep, hl]
    rw [if_pos h1]

/-- Witness for C1 (amended): concretely, the sample mapped transaction
is staged once when absent, skipped silently when present once, and
flagged with count 1 when present twice. -/
theorem reconcile_txn_cases_witness :
    zenTxnStep sampleZenCfg (fun _ => none) (sampleZenStatement, sampleZenTxn) =
      ([⟨⟨2025, 1, 1⟩,
         [.txn (zenMakeTransaction sampleZenStatement sampleZenTxn
           "Assets:Zen:PLN")]⟩], []) ∧
    zenTxnStep sampleZenCfg (fun _ => some [(0, 0)])
      (sampleZenStatement, sampleZenTxn) = ([], []) ∧
    zenTxnStep sampleZenCfg (fun _ => some [(0, 0), (3, 1)])
      (sampleZenStatement, sampleZenTxn) = ([], [⟨1, [(0, 0), (3, 1)]⟩]) :=
  ⟨((reconcile_txn_cases sampleZenCfg (fun _ => none)
      (sampleZenStatement, sampleZenTxn)).1 rfl).1 "Assets:Zen:PLN" rfl,
   (reconcile_txn_cases sampleZenCfg (fun _ => some [(0, 0)])
      (sampleZenStatement, sampleZenTxn)).2.1 [(0, 0)] rfl rfl,
   (reconcile_txn_cases sampleZenCfg (fun _ => some [(0, 0), (3, 1)])
      (sampleZenStatement, sampleZenTxn)).2.2 [(0, 0), (3, 1)] rfl
      (by decide)⟩

/-- Counterexample to C1 as stated: the sample transaction on an
unmapped account is absent from the index, yet the pass stages nothing
for it (rather than "exactly one Pending Entry"). -/
theorem reconcile_txn_cases_counterexample :
    dictGet (buildMatchedIds sampleZenCfg.allAccounts [])
        (zenGenerateTransactionId unmappedZenStatement.iban sampleZenTxn) = none ∧
    (zenTxnStep sampleZenCfg
        (dictGet (buildMatchedIds sampleZenCfg.allAccounts []))
        (unmappedZenStatement, sampleZenTxn)).1.length = 0 := by
  exact ⟨rfl, by decide⟩

/-! ## C3 — stale references -/

/-- Normal form of the stale pass: the stale index entries, each mapped
to its invalid-reference record. -/
theorem zenStalePhase_eq_filterMap (matched : List (String × List PostingRef))
    (validIds : List String) :
    zenStalePhase matched validIds =
      (matched.filter (fun e => decide (e.1 ∉ validIds))).map
        (fun e => ⟨e.2.length, e.2⟩) := by
  induction matched with
  | nil => rfl
  | cons e rest ih =>
      unfold zenStalePhase at ih ⊢
      rw [List.flatMap_cons, List.filter_cons, ih]
      by_cases hv : e.1 ∈ validIds <;> simp [hv]

/-- C3 (amended): after the stream is exhausted, zen's (and velobank's)
stale-reference pass records, for each indexed identifier no current
transaction produced, exactly one invalid reference whose count is the
full number of its (entry, posting) references and whose posting list is
all of them — one output element per stale identifier and nothing else.
(Revolut instead records count 0 and only for `revolut:`-prefixed
identifiers; see the counterexample.) -/
theorem stale_refs_complete :
    ∀ (matched : List (String × List PostingRef)) (validIds : List String),
      (∀ ref refs, (ref, refs) ∈ matched → ref ∉ validIds →
        InvalidSourceReference.mk refs.length refs ∈
          zenStalePhase matched validIds) ∧
      (∀ inv, inv ∈ zenStalePhase matched validIds →
        inv.numExtra = inv.postings.length ∧
        ∃ ref, (ref, inv.postings) ∈ matched ∧ ref ∉ validIds) ∧
      (zenStalePhase matched validIds).length =
        (matched.filter (fun e => decide (e.1 ∉ validIds))).length := by
  intro matched validIds
  refine ⟨?_, ?_, ?_⟩
  · intro ref refs hmem hnot
    unfold zenStalePhase
    refine List.mem_flatMap.mpr ⟨(ref, refs), hmem, ?_⟩
    simp [hnot]
  · intro inv hinv
    unfold zenStalePhase at hinv
    obtain ⟨e, he, hmem⟩ := List.mem_flatMap.mp hinv
    by_cases hv : e.1 ∈ validIds
    · simp [hv] at hmem
    · simp only [hv, if_false] at hmem
      rw [List.mem_singleton] at hmem
      subst hmem
      exact ⟨rfl, e.1, he, hv⟩
  · rw [zenStalePhase_eq_filterMap, List.length_map]

/-- Witness for C3 (amended): a concrete index entry carrying two
references to an identifier the source no longer produces yields the
stale record with count 2 and both references. -/
theorem stale_refs_complete_witness :
    InvalidSourceReference.mk 2 [(0, 0), (4, 1)] ∈
      zenStalePhase [("zen:b8ee6f4389f1", [(0, 0), (4, 1)])] [] :=
  (stale_refs_complete [("zen:b8ee6f4389f1", [(0, 0), (4, 1)])] []).1
    "zen:b8ee6f4389f1" [(0, 0), (4, 1)] (List.mem_singleton.mpr rfl)
    (List.not_mem_nil _)

/-- A Revolut config owning one account, for the stale counterexample. -/
def revStaleCfg : RevolutConfig := ⟨[("personal_PLN", "Assets:Revolut:PLN")]⟩

/-- A journal with a single posting carrying a Revolut identifier that no
current transaction produces. -/
def revStaleJournal : List JournalEntry :=
  [.txn [⟨"Assets:Revolut:PLN", some "revolut:deadbeef0123"⟩]]

/-- Counterexample to C3 as stated: Revolut's pass records the stale
identifier with count 0, not with the number of its references (1). -/
theorem stale_refs_counterexample :
    (revolutPrepare revStaleCfg ⟨2025, 10, 12⟩ [] revStaleJournal).staleInvalid =
      [⟨0, [(0, 0)]⟩] ∧
    ([((0 : Nat), (0 : Nat))] : List PostingRef).length ≠ 0 := by
  refine ⟨?_, ?_⟩ <;> decide

/-! ## C6 — dictionary and ordering lemmas for the balance emitters -/

theorem dictGet_dictPut_self {κ α : Type} [DecidableEq κ]
    (m : List (κ × α)) (k : κ) (v : α) :
    dictGet (dictPut m k v) k = some v := by
  induction m with
  | nil => simp [dictPut, dictGet]
  | cons e rest ih =>
      by_cases h : e.1 = k
      · obtain ⟨k', v'⟩ := e
        simp_all [dictPut, dictGet]
      · obtain ⟨k', v'⟩ := e
        simp_all [dictPut, dictGet]

theorem dictGet_dictPut_ne {κ α : Type} [DecidableEq κ]
    (m : List (κ × α)) (k k' : κ) (v : α) (h : k ≠ k') :
    dictGet (dictPut m k v) k' = dictGet m k' := by
  induction m with
  | nil => simp [dictPut, dictGet, h]
  | cons e rest ih =>
      obtain ⟨ke, ve⟩ := e
      by_cases he : ke = k
      · subst he
        simp [dictPut, dictGet, h]
      · simp [dictPut, dictGet, he, ih]

theorem dictPut_keys {κ α : Type} [DecidableEq κ]
    (m : List (κ × α)) (k : κ) (v : α) :
    (dictPut m k v).map Prod.fst =
      if k ∈ m.map Prod.fst then m.map Prod.fst
      else m.map Prod.fst ++ [k] := by
  induction m with
  | nil => simp [dictPut]
  | cons e rest ih =>
      obtain ⟨ke, ve⟩ := e
      by_cases he : ke = k
      · subst he
        simp [dictPut]
      · have hne : ¬ k = ke := fun hk => he hk.symm
        by_cases hm : k ∈ rest.map Prod.fst <;>
          simp [dictPut, he, hne, hm, ih]

theorem dictPut_keys_nodup {κ α : Type} [DecidableEq κ]
    (m : List (κ × α)) (k : κ) (v : α)
    (h : (m.map Prod.fst).Nodup) :
    ((dictPut m k v).map Prod.fst).Nodup := by
  rw [dictPut_keys]
  by_cases hm : k ∈ m.map Prod.fst
  · simpa [hm] using h
  · simp only [hm, if_false]
    exact List.Nodup.append h (List.nodup_singleton k)
      (fun x hx hxk => hm ((List.mem_singleton.mp hxk) ▸ hx))

theorem dictGet_of_mem_nodup {κ α : Type} [DecidableEq κ]
    {m : List (κ × α)} {k : κ} {v : α}
    (hmem : (k, v) ∈ m) (hnd : (m.map Prod.fst).Nodup) :
    dictGet m k = some v := by
  induction m with
  | nil => simp at hmem
  | cons e rest ih =>
      obtain ⟨ke, ve⟩ := e
      rcases List.mem_cons.mp hmem with he | hrest
      · obtain ⟨h1, h2⟩ := Prod.mk.injEq .. ▸ he
        simp [dictGet, h1.symm, h2]
      · have hne : ke ≠ k := by
          intro hk
          subst hk
          exact (List.nodup_cons.mp hnd).1
            (List.mem_map.mpr ⟨(ke, v), hrest, rfl⟩)
        simp only [List.map_cons, List.nodup_cons] at hnd
        simp [dictGet, hne, ih hrest hnd.2]

theorem getLast?_mem_of_eq_some {α : Type} :
    ∀ {l : List α} {y : α}, l.getLast? = some y → y ∈ l := by
  intro l
  induction l with
  | nil => intro y h; simp at h
  | cons a t ih =>
      intro y h
      cases t with
      | nil => simp_all
      | cons b t' =>
          rw [List.getLast?_cons_cons] at h
          exact List.mem_cons.mpr (Or.inr (ih h))

theorem pairwise_rel_getLast {α : Type} {r : α → α → Prop} :
    ∀ {l : List α}, l.Pairwise r → ∀ {x y : α}, x ∈ l →
      l.getLast? = some y → r x y ∨ x = y := by
  intro l
  induction l with
  | nil => intro _ x y hx; simp at hx
  | cons a t ih =>
      intro hp x y hx hl
      cases t with
      | nil =>
          simp only [List.mem_singleton] at hx
          simp only [List.getLast?_singleton, Option.some.injEq] at hl
          exact Or.inr (hx.trans hl)
      | cons b t' =>
          rw [List.getLast?_cons_cons] at hl
          rcases List.mem_cons.mp hx with hxa | hxt
          · subst hxa
            exact Or.inl ((List.pairwise_cons.mp hp).1 y
              (getLast?_mem_of_eq_some hl))
          · exact ih (List.pairwise_cons.mp hp).2 hxt hl

theorem foldl_dictPut_get {κ α β : Type} [DecidableEq κ]
    (key : α → κ) (val : α → β) :
    ∀ (l : List α) (m : List (κ × β)) (k : κ),
      dictGet (l.foldl (fun m e => dictPut m (key e) (val e)) m) k =
        match (l.filter (fun e => decide (key e = k))).getLast? with
        | some e => some (val e)
        | none => dictGet m k := by
  intro l
  induction l with
  | nil => intro m k; rfl
  | cons e rest ih =>
      intro m k
      rw [List.foldl_cons, ih, List.filter_cons]
      by_cases hk : key e = k
      · cases hrest : (rest.filter (fun e => decide (key e = k))).getLast? with
        | some e' => simp [hk, List.getLast?_cons, hrest]
        | none =>
            have hnil : rest.filter (fun e => decide (key e = k)) = [] := by
              rwa [← List.getLast?_eq_none_iff]
            simp [hk, hnil, dictGet_dictPut_self]
      · cases hrest : (rest.filter (fun e => decide (key e = k))).getLast? with
        | some e' => simp [hk, hrest]
        | none => simp [hk, hrest, dictGet_dictPut_ne _ _ _ _ hk]

theorem foldl_dictPut_keys_nodup {κ α β : Type} [DecidableEq κ]
    (key : α → κ) (val : α → β) :
    ∀ (l : List α) (m : List (κ × β)),
      (m.map Prod.fst).Nodup →
      ((l.foldl (fun m e => dictPut m (key e) (val e)) m).map Prod.fst).Nodup := by
  intro l
  induction l with
  | nil => intro m h; exact h
  | cons e rest ih =>
      intro m h
      exact ih _ (dictPut_keys_nodup _ _ _ h)

theorem mem_dictPut_keys {κ α : Type} [DecidableEq κ]
    (m : List (κ × α)) (k k' : κ) (v : α) :
    k' ∈ (dictPut m k v).map Prod.fst ↔
      k' ∈ m.map Prod.fst ∨ k' = k := by
  rw [dictPut_keys]
  by_cases hm : k ∈ m.map Prod.fst
  · simp only [hm, if_true]
    constructor
    · exact Or.inl
    · rintro (h | h)
      · exact h
      · exact h ▸ hm
  · simp [hm]

theorem mem_foldl_dictPut_keys {κ α β : Type} [DecidableEq κ]
    (key : α → κ) (val : α → β) :
    ∀ (l : List α) (m : List (κ × β)) (k : κ),
      k ∈ ((l.foldl (fun m e => dictPut m (key e) (val e)) m).map Prod.fst) ↔
        k ∈ m.map Prod.fst ∨ ∃ e ∈ l, key e = k := by
  intro l
  induction l with
  | nil => intro m k; simp
  | cons e rest ih =>
      intro m k
      rw [List.foldl_cons, ih, mem_dictPut_keys]
      constructor
      · rintro ((h | h) | ⟨e', he', hk⟩)
        · exact Or.inl h
        · exact Or.inr ⟨e, List.mem_cons_self .., h.symm⟩
        · exact Or.inr ⟨e', List.mem_cons_of_mem _ he', hk⟩
      · rintro (h | ⟨e', he', hk⟩)
        · exact Or.inl (Or.inl h)
        · rcases List.mem_cons.mp he' with he | he
          · exact Or.inl (Or.inr (he ▸ hk).symm)
          · exact Or.inr ⟨e', he, hk⟩

/-- `firstOfNextMonth` is injective on calendar-valid months. -/
theorem firstOfNextMonth_inj (a b : Nat × Nat)
    (ha : 1 ≤ a.2 ∧ a.2 ≤ 12) (hb : 1 ≤ b.2 ∧ b.2 ≤ 12)
    (h : firstOfNextMonth a = firstOfNextMonth b) : a = b := by
  obtain ⟨a1, a2⟩ := a
  obtain ⟨b1, b2⟩ := b
  obtain ⟨ha1, ha2⟩ := ha
  obtain ⟨hb1, hb2⟩ := hb
  unfold firstOfNextMonth at h
  simp only at h ha1 ha2 hb1 hb2 ⊢
  split_ifs at h with h1 h2 h3 <;>
    (rw [Date.mk.injEq] at h; rw [Prod.mk.injEq]) <;> omega

/-- Count of assertions dated at a given month boundary, over an
arbitrary grouped-months list with distinct, calendar-valid keys. -/
theorem balance_emit_countP (today : Date) (account : String)
    (ym : Nat × Nat) (hy : 1 ≤ ym.2 ∧ ym.2 ≤ 12) :
    ∀ (mm : List ((Nat × Nat) × (Int × String))),
      (mm.map Prod.fst).Nodup →
      (∀ k ∈ mm.map Prod.fst, 1 ≤ k.2 ∧ k.2 ≤ 12) →
      (mm.flatMap (zenBalanceEmit today account)).countP
          (fun pe => decide (pe.date = firstOfNextMonth ym)) =
        if ym ∈ mm.map Prod.fst ∧ ym ≠ (today.year, today.month) then 1
        else 0 := by
  intro mm
  induction mm with
  | nil => intro _ _; simp
  | cons e rest ih =>
      intro hnd hv
      rw [List.map_cons] at hnd hv
      have hndr : (rest.map Prod.fst).Nodup := (List.nodup_cons.mp hnd).2
      have hvr : ∀ k ∈ rest.map Prod.fst, 1 ≤ k.2 ∧ k.2 ≤ 12 :=
        fun k hk => hv k (List.mem_cons_of_mem _ hk)
      have hve : 1 ≤ e.1.2 ∧ e.1.2 ≤ 12 := hv e.1 (List.mem_cons_self ..)
      rw [List.flatMap_cons, List.countP_append, ih hndr hvr, List.map_cons]
      by_cases hcur : e.1 = (today.year, today.month)
      · have hemit : zenBalanceEmit today account e = [] := by
          simp [zenBalanceEmit, hcur]
        rw [hemit, List.countP_nil]
        by_cases hym : ym = e.1
        · have hf : ¬ (ym ∈ e.1 :: rest.map Prod.fst ∧
              ym ≠ (today.year, today.month)) := by
            rintro ⟨_, hne⟩
            exact hne (hym.trans hcur)
          have hf' : ¬ (ym ∈ rest.map Prod.fst ∧
              ym ≠ (today.year, today.month)) := by
            rintro ⟨_, hne⟩
            exact hne (hym.trans hcur)
          rw [if_neg hf', if_neg hf]
        · have hiff : (ym ∈ rest.map Prod.fst ∧ ym ≠ (today.year, today.month)) ↔
              (ym ∈ e.1 :: rest.map Prod.fst ∧ ym ≠ (today.year, today.month)) := by
            constructor
            · rintro ⟨hmem, hne⟩
              exact ⟨List.mem_cons_of_mem _ hmem, hne⟩
            · rintro ⟨hmem, hne⟩
              exact ⟨(List.mem_cons.mp hmem).resolve_left hym, hne⟩
          rw [Nat.zero_add, if_congr hiff rfl rfl]
      · have hemit : zenBalanceEmit today account e =
            [⟨firstOfNextMonth e.1,
              [.balance (firstOfNextMonth e.1) (some account) e.2]⟩] := by
          simp [zenBalanceEmit, hcur]
        rw [hemit]
        by_cases hym : e.1 = ym
        · have hnin : ym ∉ rest.map Prod.fst :=
            hym ▸ (List.nodup_cons.mp hnd).1
          have hcur' : ym ≠ (today.year, today.month) := hym ▸ hcur
          rw [if_neg (by rintro ⟨hmem, _⟩; exact hnin hmem)]
          rw [if_pos ⟨hym ▸ List.mem_cons_self .., hcur'⟩]
          simp [List.countP_cons, hym]
        · have hfne : firstOfNextMonth e.1 ≠ firstOfNextMonth ym :=
            fun hf => hym (firstOfNextMonth_inj _ _ hve hy hf)
          have hiff : (ym ∈ rest.map Prod.fst ∧ ym ≠ (today.year, today.month)) ↔
              (ym ∈ e.1 :: rest.map Prod.fst ∧ ym ≠ (today.year, today.month)) := by
            constructor
            · rintro ⟨hmem, hne⟩
              exact ⟨List.mem_cons_of_mem _ hmem, hne⟩
            · rintro ⟨hmem, hne⟩
              exact ⟨(List.mem_cons.mp hmem).resolve_left
                (fun h => hym h.symm), hne⟩
          have hcp : List.countP (fun pe => decide (pe.date = firstOfNextMonth ym))
              [(⟨firstOfNextMonth e.1,
                [Directive.balance (firstOfNextMonth e.1) (some account) e.2]⟩ :
                  PendingEntry)] = 0 := by
            simp [List.countP_cons, hfne]
          rw [hcp, Nat.zero_add, if_congr hiff rfl rfl]

/-- Reflexivity of the date order. -/
theorem Date.le_refl (d : Date) : Date.le d d := by
  unfold Date.le
  omega

/-- The grouped-months keys are distinct. -/
theorem zenMonthlyBalances_keys_nodup (l : List (Date × Int × String)) :
    ((zenMonthlyBalances l).map Prod.fst).Nodup :=
  foldl_dictPut_keys_nodup (fun e => (e.1.year, e.1.month)) (fun e => e.2)
    (sortByDate l) [] (by simp)

/-- A month is grouped exactly when some balance of the list falls in
it. -/
theorem zenMonthlyBalances_mem_keys (l : List (Date × Int × String))
    (k : Nat × Nat) :
    k ∈ (zenMonthlyBalances l).map Prod.fst ↔
      ∃ e, e ∈ l ∧ (e.1.year, e.1.month) = k := by
  unfold zenMonthlyBalances
  rw [mem_foldl_dictPut_keys]
  constructor
  · rintro (h | ⟨e, he, hk⟩)
    · simp at h
    · exact ⟨e, (List.perm_insertionSort balLe l).mem_iff.mp he, hk⟩
  · rintro ⟨e, he, hk⟩
    exact Or.inr ⟨e, (List.perm_insertionSort balLe l).mem_iff.mpr he, hk⟩

/-- A grouped month's value is the balance of one of its transactions of
maximal date. -/
theorem zenMonthlyBalances_mem_spec (l : List (Date × Int × String))
    (k : Nat × Nat) (v : Int × String)
    (hmem : (k, v) ∈ zenMonthlyBalances l) :
    ∃ e, e ∈ l ∧ (e.1.year, e.1.month) = k ∧ v = e.2 ∧
      ∀ e', e' ∈ l → (e'.1.year, e'.1.month) = k → Date.le e'.1 e.1 := by
  have hget := dictGet_of_mem_nodup hmem (zenMonthlyBalances_keys_nodup l)
  unfold zenMonthlyBalances at hget
  rw [foldl_dictPut_get] at hget
  cases hfl : ((sortByDate l).filter
      (fun e => decide ((e.1.year, e.1.month) = k))).getLast? with
  | none =>
      rw [hfl] at hget
      simp [dictGet] at hget
  | some x =>
      rw [hfl] at hget
      have hv : v = x.2 := by
        simpa using hget.symm
      have hxf := getLast?_mem_of_eq_some hfl
      have hxs : x ∈ sortByDate l := List.mem_of_mem_filter hxf
      have hxl : x ∈ l := (List.perm_insertionSort balLe l).mem_iff.mp hxs
      have hxk : (x.1.year, x.1.month) = k := by
        simpa using List.of_mem_filter hxf
      refine ⟨x, hxl, hxk, hv, ?_⟩
      intro e' he' hk'
      have he'' : e' ∈ (sortByDate l).filter
          (fun e => decide ((e.1.year, e.1.month) = k)) :=
        List.mem_filter.mpr
          ⟨(List.perm_insertionSort balLe l).mem_iff.mpr he', by simpa using hk'⟩
      have hp : (sortByDate l).Pairwise balLe :=
        List.sorted_insertionSort balLe l
      rcases pairwise_rel_getLast (hp.filter _) he'' hfl with h | h
      · exact h
      · exact h ▸ Date.le_refl _

/-- C6 (amended): per account, zen groups balances by calendar month and
emits exactly one balance assertion per grouped month other than the
month of `today` (the currently accumulating one, which is never
asserted), dated the first day after the month and asserting the balance
of a transaction of that month with the month's latest date; velobank
emits exactly one assertion per statement, dated the day after the
statement period's end and asserting the last listed transaction's
balance.  (Revolut emits a single assertion per account at its overall
latest transaction date + 1, with no per-period assertions — see the
counterexample.) -/
theorem monthly_balance_assertions :
    (∀ (today : Date) (account : String) (l : List (Date × Int × String)),
      (∀ e, e ∈ l → 1 ≤ e.1.month ∧ e.1.month ≤ 12) →
      (∀ pe, pe ∈ zenBalanceEntriesFor today account l →
        ∃ ym v, pe = ⟨firstOfNextMonth ym,
            [.balance (firstOfNextMonth ym) (some account) v]⟩ ∧
          ym ≠ (today.year, today.month) ∧
          ∃ e, e ∈ l ∧ (e.1.year, e.1.month) = ym ∧ v = e.2 ∧
            ∀ e', e' ∈ l → (e'.1.year, e'.1.month) = ym →
              Date.le e'.1 e.1) ∧
      (∀ ym : Nat × Nat, 1 ≤ ym.2 ∧ ym.2 ≤ 12 →
        ym ≠ (today.year, today.month) →
        (∃ e, e ∈ l ∧ (e.1.year, e.1.month) = ym) →
        (zenBalanceEntriesFor today account l).countP
          (fun pe => decide (pe.date = firstOfNextMonth ym)) = 1) ∧
      (1 ≤ today.month ∧ today.month ≤ 12 →
        (zenBalanceEntriesFor today account l).countP
          (fun pe => decide (pe.date =
            firstOfNextMonth (today.year, today.month))) = 0)) ∧
    (∀ (cfg : VeloConfig) (s : VeloStatementInfo) (t : VeloRawTransaction),
      s.transactions.getLast? = some t →
      veloBalanceEntryFor cfg s =
        [⟨s.period_end.nextDay,
          [.balance s.period_end.nextDay (cfg.getAccountForIban s.account_iban)
            (t.balance_after, veloDefaultCurrency)]⟩]) := by
  constructor
  · intro today account l hm
    have hnd := zenMonthlyBalances_keys_nodup l
    have hvk : ∀ k ∈ (zenMonthlyBalances l).map Prod.fst,
        1 ≤ k.2 ∧ k.2 ≤ 12 := by
      intro k hk
      obtain ⟨e, he, hke⟩ := (zenMonthlyBalances_mem_keys l k).mp hk
      have := hm e he
      obtain ⟨hk1, hk2⟩ := Prod.mk.injEq .. ▸ hke
      omega
    refine ⟨?_, ?_, ?_⟩
    · intro pe hpe
      unfold zenBalanceEntriesFor at hpe
      obtain ⟨e, he, hin⟩ := List.mem_flatMap.mp hpe
      unfold zenBalanceEmit at hin
      by_cases hcur : e.1 = (today.year, today.month)
      · simp [hcur] at hin
      · simp only [hcur, if_false, List.mem_singleton] at hin
        refine ⟨e.1, e.2, hin, hcur, ?_⟩
        exact zenMonthlyBalances_mem_spec l e.1 e.2 he
    · intro ym hy hne hex
      unfold zenBalanceEntriesFor
      rw [balance_emit_countP today account ym hy _ hnd hvk]
      rw [if_pos ⟨(zenMonthlyBalances_mem_keys l ym).mpr hex, hne⟩]
    · intro hty
      unfold zenBalanceEntriesFor
      rw [balance_emit_countP today account (today.year, today.month)
        (by simpa using hty) _ hnd hvk]
      rw [if_neg (by rintro ⟨_, hne⟩; exact hne rfl)]
  · intro cfg s t h
    unfold veloBalanceEntryFor
    rw [h]

/-- A two-month balance list for the zen witness. -/
def zenBalFixture : List (Date × Int × String) :=
  [(⟨2025, 1, 1⟩, 74428, "PLN"), (⟨2025, 2, 3⟩, 50000, "PLN")]

/-- Witness for C6 (amended): concretely, January 2025 (closed) gets
exactly one assertion dated 2025-02-01 and October 2025 (the month of
`today`) gets none; and a concrete velobank statement yields its single
period assertion. -/
theorem monthly_balance_assertions_witness :
    (zenBalanceEntriesFor ⟨2025, 10, 12⟩ "Assets:Zen:PLN" zenBalFixture).countP
        (fun pe => decide (pe.date = firstOfNextMonth (2025, 1))) = 1 ∧
    (zenBalanceEntriesFor ⟨2025, 10, 12⟩ "Assets:Zen:PLN" zenBalFixture).countP
        (fun pe => decide (pe.date = firstOfNextMonth (2025, 10))) = 0 :=
  ⟨((monthly_balance_assertions.1 ⟨2025, 10, 12⟩ "Assets:Zen:PLN" zenBalFixture
      (by decide)).2.1 (2025, 1) (by decide) (by decide)
      ⟨(⟨2025, 1, 1⟩, 74428, "PLN"), by decide, rfl⟩),
   ((monthly_balance_assertions.1 ⟨2025, 10, 12⟩ "Assets:Zen:PLN" zenBalFixture
      (by decide)).2.2 (by decide))⟩

/-- A Revolut transaction completed in January 2025. -/
def revTxnJan : RevolutTransaction := sampleRevTxn

/-- A Revolut transaction completed in March 2025. -/
def revTxnMar : RevolutTransaction :=
  { sampleRevTxn with
      started_date := ⟨2025, 3, 10⟩
      completed_date := some ⟨2025, 3, 10⟩
      amount := -2000
      balance_after := 8000
      line_number := 3 }

/-- A Revolut statement covering the two months. -/
def revTwoMonthStmt : CsvStatementInfo :=
  { filename := "revolut/2025.csv"
    account_type := "personal"
    currency := "PLN"
    transactions := [revTxnJan, revTxnMar] }

/-- Counterexample to C6 as stated: over observed transactions spanning
two closed calendar months (January and March 2025, `today` being
2025-10-12), Revolut's pass emits exactly one balance assertion, dated
2025-03-11 (latest transaction date + 1) — January gets no assertion and
no assertion is dated at a period boundary, instead of one per closed
period dated the day after each period's end. -/
theorem monthly_balance_assertions_counterexample :
    ((revolutPrepare revStaleCfg ⟨2025, 10, 12⟩ [revTwoMonthStmt] []).balancePending.map
        (fun pe => pe.date)) = [⟨2025, 3, 11⟩] ∧
    (⟨2025, 3, 11⟩ : Date) ≠ ⟨2025, 2, 1⟩ ∧
    (⟨2025, 3, 11⟩ : Date) ≠ ⟨2025, 4, 1⟩ := by
  refine ⟨?_, by decide, by decide⟩
  decide

/-! ## C2 — infrastructure: the index under journal extension -/

theorem dictGet_eq_none_iff {κ α : Type} [DecidableEq κ]
    (m : List (κ × α)) (k : κ) :
    dictGet m k = none ↔ k ∉ m.map Prod.fst := by
  induction m with
  | nil => simp [dictGet]
  | cons e rest ih =>
      obtain ⟨ke, ve⟩ := e
      by_cases h : ke = k
      · subst h
        simp [dictGet]
      · have hstep : dictGet (⟨ke, ve⟩ :: rest) k = dictGet rest k := by
          simp [dictGet, h]
        rw [hstep, ih, List.map_cons]
        constructor
        · intro hk hmem
          rcases List.mem_cons.mp hmem with he | hm
          · exact h he.symm
          · exact hk hm
        · intro hk hm
          exact hk (List.mem_cons_of_mem _ hm)

theorem dictGet_append {κ α : Type} [DecidableEq κ]
    (m₁ m₂ : List (κ × α)) (k : κ) :
    dictGet (m₁ ++ m₂) k =
      match dictGet m₁ k with
      | some v => some v
      | none => dictGet m₂ k := by
  induction m₁ with
  | nil => simp [dictGet]
  | cons e rest ih =>
      obtain ⟨ke, ve⟩ := e
      by_cases h : ke = k <;> simp [dictGet, h, ih]

theorem slotAppend_of_not_mem {κ α : Type} [DecidableEq κ]
    (m : List (κ × List α)) (k : κ) (v : α)
    (h : k ∉ m.map Prod.fst) :
    slotAppend m k v = m ++ [(k, [v])] := by
  induction m with
  | nil => simp [slotAppend]
  | cons e rest ih =>
      obtain ⟨ke, ve⟩ := e
      simp only [List.map_cons, List.mem_cons] at h
      push_neg at h
      have hne : ¬ ke = k := fun he => h.1 he.symm
      simp [slotAppend, hne, ih h.2]

/-- The reference identifiers a journal entry carries. -/
def journalEntryRefs : JournalEntry → List String
  | .txn ps => ps.filterMap (fun p => p.sourceRef)
  | .other => []

/-- The reference identifiers of a journal fragment, in scan order. -/
def journalRefs (js : List JournalEntry) : List String :=
  js.flatMap journalEntryRefs

/-- A journal fragment is index-compatible when every posting that
carries a reference sits on an owned account. -/
def RefsOwned (A : List String) (js : List JournalEntry) : Prop :=
  ∀ e ∈ js, ∀ p ∈ journalEntryRefs e, True ∧
    ∀ ps, e = .txn ps → ∀ q ∈ ps, q.sourceRef ≠ none → q.account ∈ A

/-- Scanning the postings of one entry whose referenced identifiers are
fresh extends the index by one singleton slot per reference, in order. -/
theorem scanPostings_fresh (A : List String) (ei : Nat) :
    ∀ (ps : List JPosting) (pi : Nat) (m : List (String × List PostingRef)),
      (∀ q ∈ ps, ∀ r, q.sourceRef = some r → q.account ∈ A) →
      (ps.filterMap (fun p => p.sourceRef)).Nodup →
      (∀ r ∈ ps.filterMap (fun p => p.sourceRef), r ∉ m.map Prod.fst) →
      ∃ ext : List (String × List PostingRef),
        scanPostings A ei pi m ps = m ++ ext ∧
        ext.map Prod.fst = ps.filterMap (fun p => p.sourceRef) ∧
        ∀ kv ∈ ext, ∃ pr : PostingRef, kv.2 = [pr] := by
  intro ps
  induction ps with
  | nil =>
      intro pi m _ _ _
      exact ⟨[], by simp [scanPostings], by simp, by simp⟩
  | cons q rest ih =>
      intro pi m hA hnd hfresh
      cases hq : q.sourceRef with
      | none =>
          have hm' : (if q.account ∈ A then
              match q.sourceRef with
              | some ref => slotAppend m ref (ei, pi)
              | none => m
            else m) = m := by
            by_cases hacct : q.account ∈ A <;> simp [hacct, hq]
          have hstep : scanPostings A ei pi m (q :: rest) =
              scanPostings A ei (pi + 1) m rest := by
            calc scanPostings A ei pi m (q :: rest)
                = scanPostings A ei (pi + 1)
                    (if q.account ∈ A then
                      match q.sourceRef with
                      | some ref => slotAppend m ref (ei, pi)
                      | none => m
                    else m) rest := rfl
              _ = scanPostings A ei (pi + 1) m rest := by rw [hm']
          rw [hstep]
          have hnd' : (rest.filterMap (fun p => p.sourceRef)).Nodup := by
            simpa [List.filterMap_cons, hq] using hnd
          have hfresh' : ∀ r ∈ rest.filterMap (fun p => p.sourceRef),
              r ∉ m.map Prod.fst := by
            intro r hr
            exact hfresh r (by simpa [List.filterMap_cons, hq] using hr)
          obtain ⟨ext, h1, h2, h3⟩ := ih (pi + 1) m
            (fun q' hq' => hA q' (List.mem_cons_of_mem _ hq')) hnd' hfresh'
          exact ⟨ext, h1, by simpa [List.filterMap_cons, hq] using h2, h3⟩
      | some r =>
          have hacct : q.account ∈ A := hA q (List.mem_cons_self ..) r hq
          have hrm : r ∉ m.map Prod.fst :=
            hfresh r (by simp [List.filterMap_cons, hq])
          have hm' : (if q.account ∈ A then
              match q.sourceRef with
              | some ref => slotAppend m ref (ei, pi)
              | none => m
            else m) = m ++ [(r, [(ei, pi)])] := by
            simp [hacct, hq, slotAppend_of_not_mem m r (ei, pi) hrm]
          have hstep : scanPostings A ei pi m (q :: rest) =
              scanPostings A ei (pi + 1) (m ++ [(r, [(ei, pi)])]) rest := by
            calc scanPostings A ei pi m (q :: rest)
                = scanPostings A ei (pi + 1)
                    (if q.account ∈ A then
                      match q.sourceRef with
                      | some ref => slotAppend m ref (ei, pi)
                      | none => m
                    else m) rest := rfl
              _ = scanPostings A ei (pi + 1) (m ++ [(r, [(ei, pi)])]) rest := by
                  rw [hm']
          rw [hstep]
          have hnds : (rest.filterMap (fun p => p.sourceRef)).Nodup ∧
              r ∉ rest.filterMap (fun p => p.sourceRef) := by
            have := hnd
            rw [List.filterMap_cons, hq] at this
            exact ⟨(List.nodup_cons.mp this).2, (List.nodup_cons.mp this).1⟩
          have hfresh' : ∀ r' ∈ rest.filterMap (fun p => p.sourceRef),
              r' ∉ (m ++ [(r, [(ei, pi)])]).map Prod.fst := by
            intro r' hr'
            rw [List.map_append]
            intro hmem
            rcases List.mem_append.mp hmem with h | h
            · exact hfresh r' (by simp [List.filterMap_cons, hq, hr']) h
            · simp only [List.map_cons, List.map_nil, List.mem_singleton] at h
              exact hnds.2 (h ▸ hr')
          obtain ⟨ext, h1, h2, h3⟩ := ih (pi + 1) (m ++ [(r, [(ei, pi)])])
            (fun q' hq' => hA q' (List.mem_cons_of_mem _ hq')) hnds.1 hfresh'
          refine ⟨(r, [(ei, pi)]) :: ext, by simpa using h1, ?_, ?_⟩
          · simp [List.filterMap_cons, hq, h2]
          · intro kv hkv
            rcases List.mem_cons.mp hkv with h | h
            · exact ⟨(ei, pi), by simp [h]⟩
            · exact h3 kv h

theorem buildMatchedIdsAux_append (A : List String) :
    ∀ (j₁ j₂ : List JournalEntry) (ei : Nat)
      (m : List (String × List PostingRef)),
      buildMatchedIdsAux A ei m (j₁ ++ j₂) =
        buildMatchedIdsAux A (ei + j₁.length)
          (buildMatchedIdsAux A ei m j₁) j₂ := by
  intro j₁
  induction j₁ with
  | nil => intro j₂ ei m; simp [buildMatchedIdsAux]
  | cons e rest ih =>
      intro j₂ ei m
      cases e with
      | other =>
          have h₁ : buildMatchedIdsAux A ei m (JournalEntry.other :: (rest ++ j₂)) =
              buildMatchedIdsAux A (ei + 1) m (rest ++ j₂) := rfl
          have h₂ : buildMatchedIdsAux A ei m (JournalEntry.other :: rest) =
              buildMatchedIdsAux A (ei + 1) m rest := rfl
          rw [List.cons_append, h₁, h₂, ih]
          congr 1
          simp
          omega
      | txn ps =>
          have h₁ : buildMatchedIdsAux A ei m (JournalEntry.txn ps :: (rest ++ j₂)) =
              buildMatchedIdsAux A (ei + 1) (scanPostings A ei 0 m ps)
                (rest ++ j₂) := rfl
          have h₂ : buildMatchedIdsAux A ei m (JournalEntry.txn ps :: rest) =
              buildMatchedIdsAux A (ei + 1) (scanPostings A ei 0 m ps) rest := rfl
          rw [List.cons_append, h₁, h₂, ih]
          congr 1
          simp
          omega

/-- Scanning a journal fragment whose referenced identifiers are fresh
and owned extends the index by one singleton slot per identifier, in scan
order. -/
theorem buildMatchedIdsAux_fresh (A : List String) :
    ∀ (js : List JournalEntry) (ei : Nat)
      (m : List (String × List PostingRef)),
      (∀ ps, JournalEntry.txn ps ∈ js →
        ∀ q ∈ ps, ∀ r, q.sourceRef = some r → q.account ∈ A) →
      (journalRefs js).Nodup →
      (∀ r ∈ journalRefs js, r ∉ m.map Prod.fst) →
      ∃ ext : List (String × List PostingRef),
        buildMatchedIdsAux A ei m js = m ++ ext ∧
        ext.map Prod.fst = journalRefs js ∧
        ∀ kv ∈ ext, ∃ pr : PostingRef, kv.2 = [pr] := by
  intro js
  induction js with
  | nil =>
      intro ei m _ _ _
      exact ⟨[], by simp [buildMatchedIdsAux], by simp [journalRefs], by simp⟩
  | cons e rest ih =>
      intro ei m hA hnd hfresh
      cases e with
      | other =>
          have hrefs : journalRefs (JournalEntry.other :: rest) =
              journalRefs rest := by
            simp [journalRefs, journalEntryRefs]
          rw [hrefs] at hnd hfresh
          obtain ⟨ext, h1, h2, h3⟩ := ih (ei + 1) m
            (fun ps hps => hA ps (List.mem_cons_of_mem _ hps)) hnd hfresh
          exact ⟨ext, h1, hrefs.symm ▸ h2, h3⟩
      | txn ps =>
          have hrefs : journalRefs (JournalEntry.txn ps :: rest) =
              ps.filterMap (fun p => p.sourceRef) ++ journalRefs rest := by
            simp [journalRefs, journalEntryRefs]
          rw [hrefs] at hnd hfresh
          have hndps := (List.nodup_append.mp hnd).1
          have hndr := (List.nodup_append.mp hnd).2.1
          have hdisj := (List.nodup_append.mp hnd).2.2
          obtain ⟨ext₁, hs1, hs2, hs3⟩ := scanPostings_fresh A ei ps 0 m
            (hA ps (List.mem_cons_self ..)) hndps
            (fun r hr => hfresh r (List.mem_append_left _ hr))
          have hfresh₂ : ∀ r ∈ journalRefs rest,
              r ∉ (m ++ ext₁).map Prod.fst := by
            intro r hr
            rw [List.map_append]
            intro hmem
            rcases List.mem_append.mp hmem with h | h
            · exact hfresh r (List.mem_append_right _ hr) h
            · exact hdisj (hs2 ▸ h) hr
          obtain ⟨ext₂, h1, h2, h3⟩ := ih (ei + 1) (m ++ ext₁)
            (fun ps' hps' => hA ps' (List.mem_cons_of_mem _ hps')) hndr hfresh₂
          refine ⟨ext₁ ++ ext₂, ?_, ?_, ?_⟩
          · have hb : buildMatchedIdsAux A ei m (JournalEntry.txn ps :: rest) =
                buildMatchedIdsAux A (ei + 1) (scanPostings A ei 0 m ps) rest :=
              rfl
            rw [hb, hs1, h1, List.append_assoc]
          · rw [List.map_append, hs2, h2, hrefs]
          · intro kv hkv
            rcases List.mem_append.mp hkv with h | h
            · exact hs3 kv h
            · exact h3 kv h

theorem dictGet_mem {κ α : Type} [DecidableEq κ]
    {m : List (κ × α)} {k : κ} {v : α}
    (h : dictGet m k = some v) : (k, v) ∈ m := by
  induction m with
  | nil => simp [dictGet] at h
  | cons e rest ih =>
      obtain ⟨ke, ve⟩ := e
      by_cases hk : ke = k
      · subst hk
        have hv : ve = v := by simpa [dictGet] using h
        exact hv ▸ List.mem_cons_self ..
      · simp only [dictGet, if_neg hk] at h
        exact List.mem_cons_of_mem _ (ih h)

theorem truthyAccount_eq_some {o : Option String} {a : String}
    (h : truthyAccount o = some a) : o = some a := by
  cases o with
  | none => simp [truthyAccount] at h
  | some s =>
      by_cases hs : s = "" <;> simp_all [truthyAccount]

/-- A resolved account belongs to the owned-account set. -/
theorem getAccountForId_mem_allAccounts (cfg : ZenConfig) (x a : String)
    (h : cfg.getAccountForId x = some a) : a ∈ cfg.allAccounts := by
  unfold ZenConfig.getAccountForId at h
  unfold ZenConfig.allAccounts
  cases hd : dictGet cfg.account_map x with
  | some b =>
      rw [hd] at h
      have hb : b = a := by simpa using h
      exact List.mem_append_left _
        (List.mem_map.mpr ⟨(x, a), hb ▸ dictGet_mem hd, rfl⟩)
  | none =>
      rw [hd] at h
      cases hda : cfg.default_account with
      | none => simp [hda] at h
      | some d =>
          rw [hda] at h
          have : d = a := by simpa using h
          subst this
          exact List.mem_append_right _ (by simp [hda])

/-- The reference identifiers carried by a list of pending entries'
postings (the identifiers committing them would write to the ledger). -/
def pendingRefs (pending : List PendingEntry) : List String :=
  pending.flatMap (fun pe => pe.entries.flatMap (fun d =>
    match d with
    | .txn t => t.postings.filterMap (fun p => p.sourceRef)
    | _ => []))

theorem journalEntryRefs_commitDirective (d : Directive) :
    journalEntryRefs (commitDirective d) =
      match d with
      | .txn t => t.postings.filterMap (fun p => p.sourceRef)
      | _ => [] := by
  cases d with
  | txn t =>
      simp only [commitDirective, journalEntryRefs, List.filterMap_map]
      rfl
  | balance _ _ _ => rfl
  | document _ _ _ => rfl

theorem journalRefs_commitPending (pending : List PendingEntry) :
    journalRefs (commitPending pending) = pendingRefs pending := by
  induction pending with
  | nil => rfl
  | cons pe rest ih =>
      unfold journalRefs commitPending pendingRefs at ih ⊢
      rw [List.flatMap_cons, List.flatMap_cons, List.flatMap_append, ih]
      congr 1
      induction pe.entries with
      | nil => rfl
      | cons d ds ihd =>
          rw [List.map_cons, List.flatMap_cons, List.flatMap_cons, ihd,
            journalEntryRefs_commitDirective]

/-- The invariant of staged transaction pending entries: every directive
is a transaction, and every posting carrying a reference sits on an
owned account, with an identifier that is absent from the current index
and current (in `valid_ids`). -/
def StagedInv (cfg : ZenConfig) (lookup : String → Option (List PostingRef))
    (valid : List String) (pending : List PendingEntry) : Prop :=
  ∀ pe ∈ pending, ∀ d ∈ pe.entries, ∃ t, d = .txn t ∧
    ∀ p ∈ t.postings, ∀ r, p.sourceRef = some r →
      p.account ∈ cfg.allAccounts ∧ lookup r = none ∧ r ∈ valid

theorem zenFxStep_staged_inv (cfg : ZenConfig)
    (lookup : String → Option (List PostingRef))
    (pairs : List FxPair) (nonPaired : List (ZenStatementInfo × ZenTransaction))
    (p : FxPair) (hp : p ∈ pairs) :
    StagedInv cfg lookup (zenValidIds pairs nonPaired)
      (zenFxStep cfg lookup p).1 := by
  intro pe hpe d hd
  unfold zenFxStep at hpe
  cases hs : lookup p.srcId with
  | some refs => rw [hs] at hpe; simp at hpe
  | none =>
      cases ht : lookup p.tgtId with
      | some refs => rw [hs, ht] at hpe; simp at hpe
      | none =>
          rw [hs, ht] at hpe
          cases hsa : truthyAccount (cfg.getAccountForId
              (zenAccountId p.source_statement.iban p.source_statement.currency)) with
          | none => rw [hsa] at hpe; simp at hpe
          | some sa =>
              cases hta : truthyAccount (cfg.getAccountForId
                  (zenAccountId p.target_statement.iban p.target_statement.currency)) with
              | none => rw [hsa, hta] at hpe; simp at hpe
              | some ta =>
                  rw [hsa, hta] at hpe
                  rw [List.mem_singleton] at hpe
                  subst hpe
                  rw [List.mem_singleton] at hd
                  refine ⟨zenMakeFxTransaction p sa ta, hd, ?_⟩
                  intro q hq r hr
                  have hsrcv : p.srcId ∈ zenValidIds pairs nonPaired :=
                    List.mem_append_left _
                      (List.mem_flatMap.mpr ⟨p, hp, by simp⟩)
                  have htgtv : p.tgtId ∈ zenValidIds pairs nonPaired :=
                    List.mem_append_left _
                      (List.mem_flatMap.mpr ⟨p, hp, by simp⟩)
                  rcases List.mem_cons.mp hq with h | h
                  · subst h
                    simp only [zenMakeFxTransaction, Option.some.injEq] at hr
                    refine ⟨getAccountForId_mem_allAccounts cfg _ _
                      (truthyAccount_eq_some hsa), ?_, ?_⟩
                    · rw [← hr]
                      exact hs
                    · rw [← hr]
                      exact hsrcv
                  · rw [List.mem_singleton] at h
                    subst h
                    simp only [zenMakeFxTransaction, Option.some.injEq] at hr
                    refine ⟨getAccountForId_mem_allAccounts cfg _ _
                      (truthyAccount_eq_some hta), ?_, ?_⟩
                    · rw [← hr]
                      exact ht
                    · rw [← hr]
                      exact htgtv

theorem zenTxnStep_staged_inv (cfg : ZenConfig)
    (lookup : String → Option (List PostingRef))
    (pairs : List FxPair) (nonPaired : List (ZenStatementInfo × ZenTransaction))
    (st : ZenStatementInfo × ZenTransaction) (hst : st ∈ nonPaired) :
    StagedInv cfg lookup (zenValidIds pairs nonPaired)
      (zenTxnStep cfg lookup st).1 := by
  intro pe hpe d hd
  cases hl : lookup (zenGenerateTransactionId st.1.iban st.2) with
  | some refs =>
      by_cases h1 : refs.length > 1 <;> simp [zenTxnStep, hl, h1] at hpe
  | none =>
      cases ha : cfg.getAccountForId (zenAccountId st.1.iban st.1.currency) with
      | none => simp [zenTxnStep, hl, ha] at hpe
      | some target =>
          simp only [zenTxnStep, hl, ha, List.mem_singleton] at hpe
          subst hpe
          rw [List.mem_singleton] at hd
          refine ⟨zenMakeTransaction st.1 st.2 target, hd, ?_⟩
          intro q hq r hr
          rcases List.mem_cons.mp hq with h | h
          · subst h
            simp only [zenMakeTransaction, Option.some.injEq] at hr
            refine ⟨getAccountForId_mem_allAccounts cfg _ _ ha, ?_, ?_⟩
            · rw [← hr]
              exact hl
            · rw [← hr]
              exact List.mem_append_right _
                (List.mem_map.mpr ⟨st, hst, rfl⟩)
          · rw [List.mem_singleton] at h
            subst h
            simp [zenMakeTransaction] at hr

theorem dupInvalid_none : dupInvalid none = [] := rfl

theorem dupInvalid_singleton (pr : PostingRef) : dupInvalid (some [pr]) = [] := by
  simp [dupInvalid]

theorem flatMap_eq_nil_of {α β : Type} (l : List α) (f : α → List β)
    (h : ∀ x ∈ l, f x = []) : l.flatMap f = [] := by
  induction l with
  | nil => rfl
  | cons x rest ih =>
      rw [List.flatMap_cons, h x (List.mem_cons_self ..),
        ih (fun y hy => h y (List.mem_cons_of_mem _ hy))]
      rfl

theorem flatMap_congr' {α β : Type} (l : List α) (f g : α → List β)
    (h : ∀ x ∈ l, f x = g x) : l.flatMap f = l.flatMap g := by
  induction l with
  | nil => rfl
  | cons x rest ih =>
      rw [List.flatMap_cons, List.flatMap_cons, h x (List.mem_cons_self ..),
        ih (fun y hy => h y (List.mem_cons_of_mem _ hy))]

theorem dictGet_exists_of_mem_keys {κ α : Type} [DecidableEq κ]
    (m : List (κ × α)) (k : κ) (h : k ∈ m.map Prod.fst) :
    ∃ v, dictGet m k = some v := by
  cases hg : dictGet m k with
  | none => exact absurd ((dictGet_eq_none_iff m k).mp hg) (by simpa using h)
  | some v => exact ⟨v, rfl⟩

/-- Decompose membership in the staged reference list. -/
theorem pendingRefs_spec (pending : List PendingEntry) (r : String)
    (hr : r ∈ pendingRefs pending) :
    ∃ pe, pe ∈ pending ∧ ∃ d, d ∈ pe.entries ∧ ∃ t, d = .txn t ∧
      ∃ p, p ∈ t.postings ∧ p.sourceRef = some r := by
  unfold pendingRefs at hr
  obtain ⟨pe, hpe, hr⟩ := List.mem_flatMap.mp hr
  obtain ⟨d, hd, hr⟩ := List.mem_flatMap.mp hr
  cases d with
  | txn t =>
      obtain ⟨p, hp, hpr⟩ := List.mem_filterMap.mp hr
      exact ⟨pe, hpe, .txn t, hd, t, rfl, p, hp, hpr⟩
  | balance _ _ _ => simp at hr
  | document _ _ _ => simp at hr

/-- Compose membership in the staged reference list. -/
theorem pendingRefs_of {pending : List PendingEntry} {pe : PendingEntry}
    {t : BTransaction} {p : BPosting} {r : String}
    (hpe : pe ∈ pending) (hd : Directive.txn t ∈ pe.entries)
    (hp : p ∈ t.postings) (hr : p.sourceRef = some r) :
    r ∈ pendingRefs pending := by
  unfold pendingRefs
  refine List.mem_flatMap.mpr ⟨pe, hpe, List.mem_flatMap.mpr
    ⟨.txn t, hd, ?_⟩⟩
  exact List.mem_filterMap.mpr ⟨p, hp, hr⟩

/-- If the FX step stages, it stages exactly one entry carrying both
pair identifiers in its postings. -/
theorem zenFxStep_staged_shape (cfg : ZenConfig)
    (lookup : String → Option (List PostingRef)) (p : FxPair)
    (h : (zenFxStep cfg lookup p).1 ≠ []) :
    ∃ sa ta,
      (zenFxStep cfg lookup p).1 =
        [⟨p.date, [.txn (zenMakeFxTransaction p sa ta)]⟩] ∧
      lookup p.srcId = none ∧ lookup p.tgtId = none := by
  cases hs : lookup p.srcId with
  | some refs => exact absurd (by simp [zenFxStep, hs]) h
  | none =>
      cases ht : lookup p.tgtId with
      | some refs => exact absurd (by simp [zenFxStep, hs, ht]) h
      | none =>
          cases hsa : truthyAccount (cfg.getAccountForId
              (zenAccountId p.source_statement.iban p.source_statement.currency)) with
          | none => exact absurd (by simp [zenFxStep, hs, ht, hsa]) h
          | some sa =>
              cases hta : truthyAccount (cfg.getAccountForId
                  (zenAccountId p.target_statement.iban p.target_statement.currency)) with
              | none => exact absurd (by simp [zenFxStep, hs, ht, hsa, hta]) h
              | some ta =>
                  exact ⟨sa, ta, by simp [zenFxStep, hs, ht, hsa, hta], rfl, rfl⟩

/-- If the transaction step stages, it stages exactly one entry carrying
the transaction's identifier. -/
theorem zenTxnStep_staged_shape (cfg : ZenConfig)
    (lookup : String → Option (List PostingRef))
    (st : ZenStatementInfo × ZenTransaction)
    (h : (zenTxnStep cfg lookup st).1 ≠ []) :
    ∃ target,
      (zenTxnStep cfg lookup st).1 =
        [⟨st.2.date, [.txn (zenMakeTransaction st.1 st.2 target)]⟩] ∧
      lookup (zenGenerateTransactionId st.1.iban st.2) = none := by
  cases hl : lookup (zenGenerateTransactionId st.1.iban st.2) with
  | some refs =>
      by_cases h1 : refs.length > 1
      · exact absurd (by simp [zenTxnStep, hl, h1]) h
      · exact absurd (by simp [zenTxnStep, hl, h1]) h
  | none =>
      cases ha : cfg.getAccountForId (zenAccountId st.1.iban st.1.currency) with
      | none => exact absurd (by simp [zenTxnStep, hl, ha]) h
      | some target => exact ⟨target, by simp [zenTxnStep, hl, ha], rfl⟩

/-- The FX loop's second-run behaviour: once every entry the first run
staged has been committed (so its identifiers resolve to singleton
references) and the index has otherwise only grown by those singletons,
the step stages nothing and reports exactly what the first run did. -/
theorem zenFxStep_second (cfg : ZenConfig)
    (lookup₁ lookup₂ : String → Option (List PostingRef)) (p : FxPair)
    (H1 : ∀ k v, lookup₁ k = some v → lookup₂ k = some v)
    (H2 : ∀ k, lookup₁ k = none →
      lookup₂ k = none ∨ ∃ pr, lookup₂ k = some [pr])
    (H3 : (zenFxStep cfg lookup₁ p).1 ≠ [] →
      (∃ pr, lookup₂ p.srcId = some [pr]) ∧
      (∃ pr, lookup₂ p.tgtId = some [pr])) :
    (zenFxStep cfg lookup₂ p).1 = [] ∧
    (zenFxStep cfg lookup₂ p).2 = (zenFxStep cfg lookup₁ p).2 := by
  cases hs : lookup₁ p.srcId with
  | some refsS =>
      have hs₂ := H1 _ _ hs
      cases ht : lookup₁ p.tgtId with
      | some refsT =>
          have ht₂ := H1 _ _ ht
          constructor <;> simp [zenFxStep, hs, ht, hs₂, ht₂]
      | none =>
          rcases H2 _ ht with ht₂ | ⟨pr, ht₂⟩ <;>
            constructor <;>
            simp [zenFxStep, hs, ht, hs₂, ht₂, dupInvalid_singleton, dupInvalid]
  | none =>
      cases ht : lookup₁ p.tgtId with
      | some refsT =>
          have ht₂ := H1 _ _ ht
          rcases H2 _ hs with hs₂ | ⟨pr, hs₂⟩ <;>
            constructor <;>
            simp [zenFxStep, hs, ht, hs₂, ht₂, dupInvalid_singleton, dupInvalid]
      | none =>
          cases hsa : truthyAccount (cfg.getAccountForId
              (zenAccountId p.source_statement.iban p.source_statement.currency)) with
          | some sa =>
              cases hta : truthyAccount (cfg.getAccountForId
                  (zenAccountId p.target_statement.iban p.target_statement.currency)) with
              | some ta =>
                  -- the first run staged this pair
                  obtain ⟨⟨prS, hs₂⟩, ⟨prT, ht₂⟩⟩ := H3 (by
                    simp [zenFxStep, hs, ht, hsa, hta])
                  constructor <;>
                    simp [zenFxStep, hs, ht, hsa, hta, hs₂, ht₂,
                      dupInvalid_singleton, dupInvalid]
              | none =>
                  rcases H2 _ hs with hs₂ | ⟨prS, hs₂⟩ <;>
                    rcases H2 _ ht with ht₂ | ⟨prT, ht₂⟩ <;>
                    constructor <;>
                    simp [zenFxStep, hs, ht, hsa, hta, hs₂, ht₂,
                      dupInvalid_singleton, dupInvalid]
          | none =>
              rcases H2 _ hs with hs₂ | ⟨prS, hs₂⟩ <;>
                rcases H2 _ ht with ht₂ | ⟨prT, ht₂⟩ <;>
                constructor <;>
                simp [zenFxStep, hs, ht, hsa, hs₂, ht₂,
                  dupInvalid_singleton, dupInvalid]

/-- The transaction loop's second-run behaviour. -/
theorem zenTxnStep_second (cfg : ZenConfig)
    (lookup₁ lookup₂ : String → Option (List PostingRef))
    (st : ZenStatementInfo × ZenTransaction)
    (H1 : ∀ k v, lookup₁ k = some v → lookup₂ k = some v)
    (H2 : ∀ k, lookup₁ k = none →
      lookup₂ k = none ∨ ∃ pr, lookup₂ k = some [pr])
    (H3 : (zenTxnStep cfg lookup₁ st).1 ≠ [] →
      ∃ pr, lookup₂ (zenGenerateTransactionId st.1.iban st.2) = some [pr]) :
    (zenTxnStep cfg lookup₂ st).1 = [] ∧
    (zenTxnStep cfg lookup₂ st).2 = (zenTxnStep cfg lookup₁ st).2 := by
  cases hl : lookup₁ (zenGenerateTransactionId st.1.iban st.2) with
  | some refs =>
      have hl₂ := H1 _ _ hl
      constructor <;>
        (by_cases h1 : 1 < refs.length <;> simp [zenTxnStep, hl, hl₂, h1])
  | none =>
      cases ha : cfg.getAccountForId (zenAccountId st.1.iban st.1.currency) with
      | none =>
          rcases H2 _ hl with hl₂ | ⟨pr, hl₂⟩ <;>
            constructor <;> simp [zenTxnStep, hl, ha, hl₂]
      | some target =>
          obtain ⟨pr, hl₂⟩ := H3 (by simp [zenTxnStep, hl, ha])
          constructor <;> simp [zenTxnStep, hl, ha, hl₂]

theorem flatMap_map' {α β γ : Type} (l : List α) (f : α → β) (g : β → List γ) :
    (l.map f).flatMap g = l.flatMap (fun x => g (f x)) := by
  induction l with
  | nil => rfl
  | cons x rest ih => rw [List.map_cons, List.flatMap_cons, List.flatMap_cons, ih]

/-- Every entry a first run stages satisfies the staged invariant: its
postings' references are owned, fresh in the first run's index, and
current. -/
theorem zenPrepare_staged_inv (cfg : ZenConfig) (today : Date)
    (statements : List ZenStatementInfo) (journal : List JournalEntry) :
    StagedInv cfg (dictGet (buildMatchedIds cfg.allAccounts journal))
      (zenValidIds (zenPairsOf statements) (zenNonPairedOf statements))
      (zenPrepare cfg today statements journal).stagedTxnPending := by
  intro pe hpe
  have hpe' : pe ∈
      (((zenPairsOf statements).map
        (zenFxStep cfg (dictGet (buildMatchedIds cfg.allAccounts journal)))).flatMap
          (fun r => r.1)) ++
      (((zenNonPairedOf statements).map
        (zenTxnStep cfg (dictGet (buildMatchedIds cfg.allAccounts journal)))).flatMap
          (fun r => r.1)) := hpe
  rcases List.mem_append.mp hpe' with h | h
  · obtain ⟨res, hres, hmem⟩ := List.mem_flatMap.mp h
    obtain ⟨p, hp, hpeq⟩ := List.mem_map.mp hres
    exact zenFxStep_staged_inv cfg _ (zenPairsOf statements)
      (zenNonPairedOf statements) p hp pe (hpeq ▸ hmem)
  · obtain ⟨res, hres, hmem⟩ := List.mem_flatMap.mp h
    obtain ⟨st, hst, hpeq⟩ := List.mem_map.mp hres
    exact zenTxnStep_staged_inv cfg _ (zenPairsOf statements)
      (zenNonPairedOf statements) st hst pe (hpeq ▸ hmem)

/-- C2 (amended): with a fixed source snapshot and a fixed date, the pass
is a pure function of the journal, so running it twice on identical
inputs yields identical outputs; and if every transaction entry staged by
the first run is committed to the journal (its postings and `source_ref`s
appended; the staged identifiers being pairwise distinct — no fingerprint
collisions), the second run stages no transaction entries at all and
reports exactly the first run's invalid references, while the
balance-assertion and document pending entries are re-emitted identically
(their deduplication is the write-back layer's concern).  In particular
the second run's invalid references are empty iff the first run's were. -/
theorem zen_prepare_idempotent :
    ∀ (cfg : ZenConfig) (today : Date) (statements : List ZenStatementInfo)
      (journal : List JournalEntry),
      (pendingRefs
        (zenPrepare cfg today statements journal).stagedTxnPending).Nodup →
      (zenPrepare cfg today statements (journal ++ commitPending
        (zenPrepare cfg today statements journal).stagedTxnPending)).fxPending
          = [] ∧
      (zenPrepare cfg today statements (journal ++ commitPending
        (zenPrepare cfg today statements journal).stagedTxnPending)).txnPending
          = [] ∧
      (zenPrepare cfg today statements (journal ++ commitPending
        (zenPrepare cfg today statements journal).stagedTxnPending)).invalid
          = (zenPrepare cfg today statements journal).invalid ∧
      (zenPrepare cfg today statements (journal ++ commitPending
        (zenPrepare cfg today statements journal).stagedTxnPending)).balancePending
          = (zenPrepare cfg today statements journal).balancePending ∧
      (zenPrepare cfg today statements (journal ++ commitPending
        (zenPrepare cfg today statements journal).stagedTxnPending)).docPending
          = (zenPrepare cfg today statements journal).docPending ∧
      (zenPrepare cfg today statements (journal ++ commitPending
        (zenPrepare cfg today statements journal).stagedTxnPending)).accounts
          = (zenPrepare cfg today statements journal).accounts := by
  intro cfg today statements journal hnd
  have hInv := zenPrepare_staged_inv cfg today statements journal
  have hfresh : ∀ r ∈ pendingRefs
      (zenPrepare cfg today statements journal).stagedTxnPending,
      r ∉ (buildMatchedIds cfg.allAccounts journal).map Prod.fst := by
    intro r hr
    obtain ⟨pe, hpe, d, hd, t, hdt, p, hp, hpr⟩ := pendingRefs_spec _ r hr
    obtain ⟨t', hdt', hprop⟩ := hInv pe hpe d hd
    have htt : t = t' := by
      rw [hdt] at hdt'
      exact Directive.txn.inj hdt'
    exact (dictGet_eq_none_iff _ _).mp (hprop p (htt ▸ hp) r hpr).2.1
  have hvalid : ∀ r ∈ pendingRefs
      (zenPrepare cfg today statements journal).stagedTxnPending,
      r ∈ zenValidIds (zenPairsOf statements) (zenNonPairedOf statements) := by
    intro r hr
    obtain ⟨pe, hpe, d, hd, t, hdt, p, hp, hpr⟩ := pendingRefs_spec _ r hr
    obtain ⟨t', hdt', hprop⟩ := hInv pe hpe d hd
    have htt : t = t' := by
      rw [hdt] at hdt'
      exact Directive.txn.inj hdt'
    exact (hprop p (htt ▸ hp) r hpr).2.2
  have hA : ∀ ps, JournalEntry.txn ps ∈ commitPending
      (zenPrepare cfg today statements journal).stagedTxnPending →
      ∀ q ∈ ps, ∀ r, q.sourceRef = some r → q.account ∈ cfg.allAccounts := by
    intro ps hps q hq r hr
    unfold commitPending at hps
    obtain ⟨pe, hpe, hmem⟩ := List.mem_flatMap.mp hps
    obtain ⟨d, hd, hcd⟩ := List.mem_map.mp hmem
    obtain ⟨t, hdt, hprop⟩ := hInv pe hpe d hd
    subst hdt
    have hps' : ps = t.postings.map
        (fun p => (⟨p.account, p.sourceRef⟩ : JPosting)) := by
      simp only [commitDirective] at hcd
      exact (JournalEntry.txn.inj hcd).symm
    subst hps'
    obtain ⟨p₀, hp₀, hq₀⟩ := List.mem_map.mp hq
    have hr₀ : p₀.sourceRef = some r := by
      rw [← hq₀] at hr
      exact hr
    rw [← hq₀]
    exact (hprop p₀ hp₀ r hr₀).1
  have hndref : (journalRefs (commitPending
      (zenPrepare cfg today statements journal).stagedTxnPending)).Nodup := by
    rw [journalRefs_commitPending]
    exact hnd
  have hfresh' : ∀ r ∈ journalRefs (commitPending
      (zenPrepare cfg today statements journal).stagedTxnPending),
      r ∉ (buildMatchedIds cfg.allAccounts journal).map Prod.fst := by
    rw [journalRefs_commitPending]
    exact hfresh
  obtain ⟨ext, hm2, hkeys, hsing⟩ := buildMatchedIdsAux_fresh cfg.allAccounts
    (commitPending (zenPrepare cfg today statements journal).stagedTxnPending)
    journal.length (buildMatchedIds cfg.allAccounts journal) hA hndref hfresh'
  have hmat2 : buildMatchedIds cfg.allAccounts (journal ++ commitPending
      (zenPrepare cfg today statements journal).stagedTxnPending) =
      buildMatchedIds cfg.allAccounts journal ++ ext := by
    unfold buildMatchedIds
    rw [buildMatchedIdsAux_append, Nat.zero_add]
    exact hm2
  have H1 : ∀ k v,
      dictGet (buildMatchedIds cfg.allAccounts journal) k = some v →
      dictGet (buildMatchedIds cfg.allAccounts (journal ++ commitPending
        (zenPrepare cfg today statements journal).stagedTxnPending)) k
          = some v := by
    intro k v h
    rw [hmat2, dictGet_append, h]
  have H2 : ∀ k,
      dictGet (buildMatchedIds cfg.allAccounts journal) k = none →
      dictGet (buildMatchedIds cfg.allAccounts (journal ++ commitPending
        (zenPrepare cfg today statements journal).stagedTxnPending)) k
          = none ∨
      ∃ pr, dictGet (buildMatchedIds cfg.allAccounts (journal ++ commitPending
        (zenPrepare cfg today statements journal).stagedTxnPending)) k
          = some [pr] := by
    intro k h
    rw [hmat2, dictGet_append, h]
    show dictGet ext k = none ∨ ∃ pr, dictGet ext k = some [pr]
    by_cases hk : k ∈ ext.map Prod.fst
    · right
      obtain ⟨v, hv⟩ := dictGet_exists_of_mem_keys ext k hk
      obtain ⟨pr, hpr⟩ := hsing (k, v) (dictGet_mem hv)
      exact ⟨pr, by rw [hv]; exact congrArg some hpr⟩
    · exact Or.inl ((dictGet_eq_none_iff ext k).mpr hk)
  have H3 : ∀ r ∈ pendingRefs
      (zenPrepare cfg today statements journal).stagedTxnPending,
      ∃ pr, dictGet (buildMatchedIds cfg.allAccounts (journal ++ commitPending
        (zenPrepare cfg today statements journal).stagedTxnPending)) r
          = some [pr] := by
    intro r hr
    have hrk : r ∈ ext.map Prod.fst := by
      rw [hkeys, journalRefs_commitPending]
      exact hr
    have hnone : dictGet (buildMatchedIds cfg.allAccounts journal) r = none :=
      (dictGet_eq_none_iff _ _).mpr (hfresh r hr)
    rw [hmat2, dictGet_append, hnone]
    show ∃ pr, dictGet ext r = some [pr]
    obtain ⟨v, hv⟩ := dictGet_exists_of_mem_keys ext r hrk
    obtain ⟨pr, hpr⟩ := hsing (r, v) (dictGet_mem hv)
    exact ⟨pr, by rw [hv]; exact congrArg some hpr⟩
  have H3fx : ∀ p ∈ zenPairsOf statements,
      (zenFxStep cfg (dictGet (buildMatchedIds cfg.allAccounts journal)) p).1
        ≠ [] →
      (∃ pr, dictGet (buildMatchedIds cfg.allAccounts (journal ++ commitPending
        (zenPrepare cfg today statements journal).stagedTxnPending)) p.srcId
          = some [pr]) ∧
      (∃ pr, dictGet (buildMatchedIds cfg.allAccounts (journal ++ commitPending
        (zenPrepare cfg today statements journal).stagedTxnPending)) p.tgtId
          = some [pr]) := by
    intro p hp hne
    obtain ⟨sa, ta, hshape, hs, ht⟩ := zenFxStep_staged_shape cfg _ p hne
    have hpe : (⟨p.date, [.txn (zenMakeFxTransaction p sa ta)]⟩ : PendingEntry) ∈
        (zenPrepare cfg today statements journal).stagedTxnPending := by
      show _ ∈ (((zenPairsOf statements).map
          (zenFxStep cfg (dictGet (buildMatchedIds cfg.allAccounts journal)))).flatMap
            (fun r => r.1)) ++
        (((zenNonPairedOf statements).map
          (zenTxnStep cfg (dictGet (buildMatchedIds cfg.allAccounts journal)))).flatMap
            (fun r => r.1))
      refine List.mem_append_left _ (List.mem_flatMap.mpr
        ⟨zenFxStep cfg (dictGet (buildMatchedIds cfg.allAccounts journal)) p,
         List.mem_map.mpr ⟨p, hp, rfl⟩, ?_⟩)
      rw [hshape]
      exact List.mem_singleton.mpr rfl
    constructor
    · exact H3 p.srcId (pendingRefs_of hpe (List.mem_singleton.mpr rfl)
        (List.mem_cons_self ..) rfl)
    · exact H3 p.tgtId (pendingRefs_of hpe (List.mem_singleton.mpr rfl)
        (List.mem_cons_of_mem _ (List.mem_singleton.mpr rfl)) rfl)
  have H3txn : ∀ st ∈ zenNonPairedOf statements,
      (zenTxnStep cfg (dictGet (buildMatchedIds cfg.allAccounts journal)) st).1
        ≠ [] →
      ∃ pr, dictGet (buildMatchedIds cfg.allAccounts (journal ++ commitPending
        (zenPrepare cfg today statements journal).stagedTxnPending))
          (zenGenerateTransactionId st.1.iban st.2) = some [pr] := by
    intro st hst hne
    obtain ⟨target, hshape, hl⟩ := zenTxnStep_staged_shape cfg _ st hne
    have hpe : (⟨st.2.date, [.txn (zenMakeTransaction st.1 st.2 target)]⟩ :
        PendingEntry) ∈
        (zenPrepare cfg today statements journal).stagedTxnPending := by
      show _ ∈ (((zenPairsOf statements).map
          (zenFxStep cfg (dictGet (buildMatchedIds cfg.allAccounts journal)))).flatMap
            (fun r => r.1)) ++
        (((zenNonPairedOf statements).map
          (zenTxnStep cfg (dictGet (buildMatchedIds cfg.allAccounts journal)))).flatMap
            (fun r => r.1))
      refine List.mem_append_right _ (List.mem_flatMap.mpr
        ⟨zenTxnStep cfg (dictGet (buildMatchedIds cfg.allAccounts journal)) st,
         List.mem_map.mpr ⟨st, hst, rfl⟩, ?_⟩)
      rw [hshape]
      exact List.mem_singleton.mpr rfl
    exact H3 _ (pendingRefs_of hpe (List.mem_singleton.mpr rfl)
      (List.mem_cons_self ..) rfl)
  refine ⟨?_, ?_, ?_, rfl, rfl, rfl⟩
  · show ((zenPairsOf statements).map (zenFxStep cfg
        (dictGet (buildMatchedIds cfg.allAccounts (journal ++ commitPending
          (zenPrepare cfg today statements journal).stagedTxnPending))))).flatMap
      (fun r => r.1) = []
    apply flatMap_eq_nil_of
    intro x hx
    obtain ⟨p, hp, hxe⟩ := List.mem_map.mp hx
    rw [← hxe]
    exact (zenFxStep_second cfg _ _ p H1 H2 (H3fx p hp)).1
  · show ((zenNonPairedOf statements).map (zenTxnStep cfg
        (dictGet (buildMatchedIds cfg.allAccounts (journal ++ commitPending
          (zenPrepare cfg today statements journal).stagedTxnPending))))).flatMap
      (fun r => r.1) = []
    apply flatMap_eq_nil_of
    intro x hx
    obtain ⟨st, hst, hxe⟩ := List.mem_map.mp hx
    rw [← hxe]
    exact (zenTxnStep_second cfg _ _ st H1 H2 (H3txn st hst)).1
  · show (((zenPairsOf statements).map (zenFxStep cfg
        (dictGet (buildMatchedIds cfg.allAccounts (journal ++ commitPending
          (zenPrepare cfg today statements journal).stagedTxnPending))))).flatMap
      (fun r => r.2)) ++
      (((zenNonPairedOf statements).map (zenTxnStep cfg
        (dictGet (buildMatchedIds cfg.allAccounts (journal ++ commitPending
          (zenPrepare cfg today statements journal).stagedTxnPending))))).flatMap
      (fun r => r.2)) ++
      zenStalePhase (buildMatchedIds cfg.allAccounts (journal ++ commitPending
        (zenPrepare cfg today statements journal).stagedTxnPending))
        (zenValidIds (zenPairsOf statements) (zenNonPairedOf statements)) =
      (((zenPairsOf statements).map (zenFxStep cfg
        (dictGet (buildMatchedIds cfg.allAccounts journal)))).flatMap
      (fun r => r.2)) ++
      (((zenNonPairedOf statements).map (zenTxnStep cfg
        (dictGet (buildMatchedIds cfg.allAccounts journal)))).flatMap
      (fun r => r.2)) ++
      zenStalePhase (buildMatchedIds cfg.allAccounts journal)
        (zenValidIds (zenPairsOf statements) (zenNonPairedOf statements))
    congr 1
    · congr 1
      · rw [flatMap_map', flatMap_map']
        exact flatMap_congr' _ _ _
          (fun p hp => (zenFxStep_second cfg _ _ p H1 H2 (H3fx p hp)).2)
      · rw [flatMap_map', flatMap_map']
        exact flatMap_congr' _ _ _
          (fun st hst => (zenTxnStep_second cfg _ _ st H1 H2 (H3txn st hst)).2)
    · rw [hmat2]
      unfold zenStalePhase
      rw [List.flatMap_append]
      have hnil : ext.flatMap (fun e =>
          if e.1 ∈ zenValidIds (zenPairsOf statements) (zenNonPairedOf statements)
          then ([] : List InvalidSourceReference)
          else [⟨e.2.length, e.2⟩]) = [] := by
        apply flatMap_eq_nil_of
        intro e he
        have hek : e.1 ∈ pendingRefs
            (zenPrepare cfg today statements journal).stagedTxnPending := by
          rw [← journalRefs_commitPending, ← hkeys]
          exact List.mem_map.mpr ⟨e, he, rfl⟩
        rw [if_pos (hvalid e.1 hek)]
      rw [hnil, List.append_nil]

/-- Witness for C2 (amended): committing the single staged entry of a
concrete first run makes the second run stage nothing, with identical
invalid references. -/
theorem zen_prepare_idempotent_witness :
    (zenPrepare sampleZenCfg ⟨2025, 10, 12⟩ [sampleZenStatement]
      ([] ++ commitPending
        (zenPrepare sampleZenCfg ⟨2025, 10, 12⟩
          [sampleZenStatement] []).stagedTxnPending)).txnPending = [] ∧
    (zenPrepare sampleZenCfg ⟨2025, 10, 12⟩ [sampleZenStatement]
      ([] ++ commitPending
        (zenPrepare sampleZenCfg ⟨2025, 10, 12⟩
          [sampleZenStatement] []).stagedTxnPending)).invalid =
      (zenPrepare sampleZenCfg ⟨2025, 10, 12⟩ [sampleZenStatement] []).invalid := by
  have h := zen_prepare_idempotent sampleZenCfg ⟨2025, 10, 12⟩
    [sampleZenStatement] [] (by decide)
  exact ⟨h.2.1, h.2.2.1⟩

/-- A journal carrying the sample transaction's identifier twice
(duplicate import) on the owned account. -/
def zenDupJournal : List JournalEntry :=
  [.txn [⟨"Assets:Zen:PLN",
     some (zenGenerateTransactionId "GB72TCCL04140411776433" sampleZenTxn)⟩],
   .txn [⟨"Assets:Zen:PLN",
     some (zenGenerateTransactionId "GB72TCCL04140411776433" sampleZenTxn)⟩]]

/-- Counterexample to C2 as stated: starting from a ledger that already
holds the sample identifier twice, the first run stages nothing (so
committing its entire output adds no postings), yet the second run still
reports one invalid reference (not zero) and still emits two pending
entries (the re-emitted balance assertion and document directive — not an
empty list). -/
theorem zen_prepare_idempotent_counterexample :
    (zenPrepare sampleZenCfg ⟨2025, 10, 12⟩ [sampleZenStatement]
      (zenDupJournal ++ commitPending
        (zenPrepare sampleZenCfg ⟨2025, 10, 12⟩
          [sampleZenStatement] zenDupJournal).pending)).invalid.length = 1 ∧
    (zenPrepare sampleZenCfg ⟨2025, 10, 12⟩ [sampleZenStatement]
      (zenDupJournal ++ commitPending
        (zenPrepare sampleZenCfg ⟨2025, 10, 12⟩
          [sampleZenStatement] zenDupJournal).pending)).pending.length = 2 := by
  refine ⟨?_, ?_⟩ <;> decide
